import Mathlib

/-!
Shallow embedding of kluctl's server-side-apply orchestrator
(`pkg/deployment/utils/apply_utils.go`) and proofs about it.

The Kubernetes cluster gateway is modelled by scripted responses: each
gateway operation pops the next response from the corresponding script and
records the call (with its full argument and option values) in a trace.
Pure collaborators (remote cache, conflict resolver, object validator, GVK
enumeration) are fields of an `Env` record.  State mutation follows the Go
code line by line; the mutex is represented by sequential state passing.
-/

namespace KluctlApply

/-- Group/version/kind triple. -/
structure GVK where
  group : String
  version : String
  kind : String
deriving DecidableEq, Repr

/-- `k8s2.ObjectRef`: the five-component primary key of all maps. -/
structure ObjectRef where
  gvk : GVK
  name : String
  ns : String
deriving DecidableEq, Repr

/-- `uo.UnstructuredObject`, reduced to the fields the orchestrator reads or
writes: its reference, `metadata.resourceVersion`, its annotations, and an
abstract payload standing for the rest of the object tree. -/
structure UnstructuredObject where
  ref : ObjectRef
  resourceVersion : String
  annotations : List (String × String)
  payload : Nat
deriving DecidableEq, Repr

instance : Inhabited UnstructuredObject :=
  ⟨{ ref := { gvk := { group := "", version := "", kind := "" }, name := "", ns := "" },
     resourceVersion := "", annotations := [], payload := 0 }⟩

def UnstructuredObject.getK8sRef (o : UnstructuredObject) : ObjectRef := o.ref

def UnstructuredObject.getK8sName (o : UnstructuredObject) : String := o.ref.name

def UnstructuredObject.setK8sName (o : UnstructuredObject) (n : String) : UnstructuredObject :=
  { o with ref := { o.ref with name := n } }

def UnstructuredObject.getK8sResourceVersion (o : UnstructuredObject) : String :=
  o.resourceVersion

def UnstructuredObject.setK8sResourceVersion (o : UnstructuredObject) (rv : String) :
    UnstructuredObject :=
  { o with resourceVersion := rv }

/-- Deep copy; pure values make this the identity. -/
def UnstructuredObject.clone (o : UnstructuredObject) : UnstructuredObject := o

def UnstructuredObject.getK8sAnnotation (o : UnstructuredObject) (k : String) : Option String :=
  (o.annotations.find? (fun p => p.1 = k)).map Prod.snd

/-- `r.ReplaceKeys(tmp, real)` / `r.ReplaceValues(tmp, real)` of the dry-run
dummy-name workaround, reduced to renaming the object itself. -/
def UnstructuredObject.replaceNames (o : UnstructuredObject) (tmp real : String) :
    UnstructuredObject :=
  if o.getK8sName = tmp then o.setK8sName real else o

/-- The typed Kubernetes error taxonomy distinguished by the callers
(`errors.IsNotFound` / `IsConflict` / `IsInternalError`, `meta.IsNoMatchError`).
A conflict carries the status entries `(field, message)` consumed by the
conflict resolver. -/
inductive K8sError where
  | notFound
  | conflict (status : List (String × String))
  | internalError
  | noMatch
  | otherApi (msg : String)
deriving DecidableEq, Repr

/-- A Go `error` value: either a typed API error or a plain message
(`fmt.Errorf`). -/
inductive GoError where
  | api (e : K8sError)
  | text (msg : String)
deriving DecidableEq, Repr

def GoError.isNotFound : GoError → Bool
  | .api .notFound => true
  | _ => false

def GoError.isConflict : GoError → Bool
  | .api (.conflict _) => true
  | _ => false

def GoError.isInternal : GoError → Bool
  | .api .internalError => true
  | _ => false

def GoError.isNoMatch : GoError → Bool
  | .api .noMatch => true
  | _ => false

/-- `k8s.PatchOptions`. -/
structure PatchOptions where
  forceDryRun : Bool := false
  forceApply : Bool := false
deriving DecidableEq, Repr

/-- `k8s.UpdateOptions`. -/
structure UpdateOptions where
  forceDryRun : Bool := false
deriving DecidableEq, Repr

/-- `k8s.DeleteOptions`. -/
structure DeleteOptions where
  forceDryRun : Bool := false
deriving DecidableEq, Repr

/-- `ApplyUtilOptions`; `WaitObjectTimeout` in abstract time units. -/
structure ApplyUtilOptions where
  forceApply : Bool := false
  replaceOnError : Bool := false
  forceReplaceOnError : Bool := false
  dryRun : Bool := false
  abortOnError : Bool := false
  waitObjectTimeout : Nat := 0
  noWait : Bool := false
deriving DecidableEq, Repr

/-- Insert-or-replace into an association list, keeping the map reading of
Go's `map[k8s2.ObjectRef]*uo.UnstructuredObject`. -/
def mapInsert (m : List (ObjectRef × UnstructuredObject)) (k : ObjectRef)
    (v : UnstructuredObject) : List (ObjectRef × UnstructuredObject) :=
  match m with
  | [] => [(k, v)]
  | (k', v') :: rest => if k' = k then (k, v) :: rest else (k', v') :: mapInsert rest k v

/-- Insert into a set of refs (Go's `map[k8s2.ObjectRef]bool`). -/
def setInsert (s : List ObjectRef) (k : ObjectRef) : List ObjectRef :=
  if k ∈ s then s else s ++ [k]

/-- The mutable fields of `ApplyUtil` together with the error/warning sink
`dew` (`DeploymentErrorsAndWarnings`), plus the immutable run options `o`. -/
structure ApplyState where
  o : ApplyUtilOptions
  appliedObjects : List (ObjectRef × UnstructuredObject) := []
  appliedHookObjects : List (ObjectRef × UnstructuredObject) := []
  deletedObjects : List ObjectRef := []
  deletedHookObjects : List ObjectRef := []
  abortSignal : Bool := false
  deployedNewCRD : Bool := false
  errors : List (ObjectRef × GoError) := []
  warnings : List (ObjectRef × String) := []
  apiWarnings : List (ObjectRef × String) := []
deriving DecidableEq, Repr

/-- `NewApplyUtil`: all maps empty, `deployedNewCRD = true` ("assume someone
deployed CRDs in the meantime"). -/
def newApplyUtil (o : ApplyUtilOptions) : ApplyState :=
  { o := o, deployedNewCRD := true }

/-- `ApplyUtil.handleResult`: records the applied object under its ref, in
both maps when it was a hook. -/
def ApplyState.handleResult (st : ApplyState) (appliedObject : UnstructuredObject)
    (hook : Bool) : ApplyState :=
  let ref := appliedObject.getK8sRef
  let st := if hook then
      { st with appliedHookObjects := mapInsert st.appliedHookObjects ref appliedObject }
    else st
  { st with appliedObjects := mapInsert st.appliedObjects ref appliedObject }

/-- `dew.AddApiWarnings`. -/
def ApplyState.addApiWarnings (st : ApplyState) (ref : ObjectRef) (ws : List String) :
    ApplyState :=
  { st with apiWarnings := st.apiWarnings ++ ws.map (fun w => (ref, w)) }

/-- `dew.AddWarning` (via `ApplyUtil.HandleWarning`). -/
def ApplyState.addWarning (st : ApplyState) (ref : ObjectRef) (w : String) : ApplyState :=
  { st with warnings := st.warnings ++ [(ref, w)] }

/-- `ApplyUtil.HandleError`: raises `abortSignal` when the run has
`AbortOnError`, then records the error in the sink. -/
def ApplyState.handleError (st : ApplyState) (ref : ObjectRef) (err : GoError) : ApplyState :=
  let st := if st.o.abortOnError then { st with abortSignal := true } else st
  { st with errors := st.errors ++ [(ref, err)] }

/-- One recorded interaction: a gateway call with its argument and option
values, an invocation of `handleResult` (whose argument may be Go `nil`), or
a progress/scheduler marker. -/
inductive Call where
  | patch (obj : UnstructuredObject) (opts : PatchOptions)
  | update (obj : UnstructuredObject) (opts : UpdateOptions)
  | delete (ref : ObjectRef) (opts : DeleteOptions)
  | get (ref : ObjectRef)
  | rediscover
  | handleResult (obj : Option UnstructuredObject) (hook : Bool)
  | itemSkipped (item : String)
  | itemDispatched (item : String)
deriving DecidableEq, Repr

/-- Scripted response of `PatchObject` / `UpdateObject`. -/
structure PatchResp where
  result : Option UnstructuredObject := none
  warnings : List String := []
  err : Option GoError := none
deriving DecidableEq, Repr

/-- Scripted response of `DeleteSingleObject`. -/
structure DeleteResp where
  warnings : List String := []
  err : Option GoError := none
deriving DecidableEq, Repr

/-- Scripted response of `GetSingleObject`. -/
structure GetResp where
  result : Option UnstructuredObject := none
  warnings : List String := []
  err : Option GoError := none
deriving DecidableEq, Repr

/-- Orchestrator state plus scripted gateway and the call trace.  Each
gateway operation consumes the head of its script (a successful echoing
default when the script is empty) and appends a `Call`.  `pollSchedules`
supplies, per readiness wait, the elapsed time observed at each poll. -/
structure World where
  st : ApplyState
  patches : List PatchResp := []
  updates : List PatchResp := []
  deletes : List DeleteResp := []
  gets : List GetResp := []
  rediscoveries : List (Option GoError) := []
  pollSchedules : List (List Nat) := []
  calls : List Call := []

/-- `k.PatchObject`. -/
def World.patchObject (w : World) (x : UnstructuredObject) (opts : PatchOptions) :
    PatchResp × World :=
  let resp := w.patches.headD { result := some x }
  (resp, { w with patches := w.patches.tail, calls := w.calls ++ [Call.patch x opts] })

/-- `k.UpdateObject`. -/
def World.updateObject (w : World) (x : UnstructuredObject) (opts : UpdateOptions) :
    PatchResp × World :=
  let resp := w.updates.headD { result := some x }
  (resp, { w with updates := w.updates.tail, calls := w.calls ++ [Call.update x opts] })

/-- `k.DeleteSingleObject`. -/
def World.deleteSingleObject (w : World) (ref : ObjectRef) (opts : DeleteOptions) :
    DeleteResp × World :=
  let resp := w.deletes.headD {}
  (resp, { w with deletes := w.deletes.tail, calls := w.calls ++ [Call.delete ref opts] })

/-- `k.GetSingleObject`. -/
def World.getSingleObject (w : World) (ref : ObjectRef) : GetResp × World :=
  let resp := w.gets.headD { err := some (GoError.api K8sError.notFound) }
  (resp, { w with gets := w.gets.tail, calls := w.calls ++ [Call.get ref] })

/-- `k.RediscoverResources`. -/
def World.rediscoverResources (w : World) : Option GoError × World :=
  let resp := w.rediscoveries.headD none
  (resp, { w with rediscoveries := w.rediscoveries.tail, calls := w.calls ++ [Call.rediscover] })

/-- Call-site wrapper for `handleResult` that also records the invocation in
the trace.  When the argument is `none`, the Go code dereferences a nil
pointer inside `handleResult` (`appliedObject.GetK8sRef()`), so no state
transition is modelled for that case. -/
def World.handleResultCall (w : World) (x : Option UnstructuredObject) (hook : Bool) : World :=
  let w := { w with calls := w.calls ++ [Call.handleResult x hook] }
  match x with
  | some obj => { w with st := w.st.handleResult obj hook }
  | none => w

/-- The lost-ownership records produced by the conflict resolver. -/
structure LostOwnership where
  field : String
  message : String
deriving DecidableEq, Repr

/-- Result of `validation.ValidateObject`. -/
structure ValidateResult where
  ready : Bool := false
  errors : List String := []
deriving DecidableEq, Repr

/-- Pure collaborators: the remote cache `ru.GetRemoteObject`, GVK
enumeration `k.GetGVKs`, `k.FixObjectForPatch`,
`diff.ResolveFieldManagerConflicts`, `validation.ValidateObject`, and the
8-character random suffix of the dry-run dummy-name workaround. -/
structure Env where
  remote : ObjectRef → Option UnstructuredObject
  getGVKs : String → String → String → List GVK
  fixObjectForPatch : UnstructuredObject → UnstructuredObject := id
  resolveConflicts : UnstructuredObject → UnstructuredObject → List (String × String) →
    Except String (UnstructuredObject × List LostOwnership)
  validate : UnstructuredObject → ValidateResult
  randomSuffix : String := "abcdefgh"

/-- `ApplyUtil.DeleteObject` (apply_utils.go:102-123): delete with
`ForceDryRun = o.DryRun`; a `NotFound` is swallowed; on success the ref is
recorded in the deleted-objects (or deleted-hooks) set. -/
def deleteObject (w : World) (ref : ObjectRef) (hook : Bool) : Bool × World :=
  let opts : DeleteOptions := { forceDryRun := w.st.o.dryRun }
  let (resp, w) := w.deleteSingleObject ref opts
  let w := { w with st := w.st.addApiWarnings ref resp.warnings }
  match resp.err with
  | some e =>
    if e.isNotFound then (false, w)
    else (false, { w with st := w.st.handleError ref e })
  | none =>
    if hook then
      (true, { w with st := { w.st with deletedHookObjects := setInsert w.st.deletedHookObjects ref } })
    else
      (true, { w with st := { w.st with deletedObjects := setInsert w.st.deletedObjects ref } })

/-- `ApplyUtil.retryApplyForceReplace` (apply_utils.go:125-154): if
`ForceReplaceOnError` is unset record the error; otherwise delete the object
and, outside dry-run, patch again; under dry-run record `x` as the result. -/
def retryApplyForceReplace (w : World) (x : UnstructuredObject) (hook : Bool)
    (applyError : GoError) : World :=
  let ref := x.getK8sRef
  if !w.st.o.forceReplaceOnError then
    { w with st := w.st.handleError ref applyError }
  else
    let (ok, w) := deleteObject w ref hook
    if !ok then w
    else if !w.st.o.dryRun then
      let opts : PatchOptions := { forceDryRun := w.st.o.dryRun }
      let (resp, w) := w.patchObject x opts
      let w := { w with st := w.st.addApiWarnings ref resp.warnings }
      match resp.err with
      | some e => { w with st := w.st.handleError ref e }
      | none => w.handleResultCall resp.result hook
    else
      w.handleResultCall (some x) hook

/-- `ApplyUtil.retryApplyWithReplace` (apply_utils.go:156-182).  The source
computes the stamped clone `x2 := x.Clone(); x2.SetK8sResourceVersion(rv)`
but then passes `x` — not `x2` — to `a.k.UpdateObject` (line 175); the model
reproduces this. -/
def retryApplyWithReplace (w : World) (x : UnstructuredObject) (hook : Bool)
    (remoteObject : Option UnstructuredObject) (applyError : GoError) : World :=
  let ref := x.getK8sRef
  match remoteObject with
  | none => { w with st := w.st.handleError ref applyError }
  | some remote =>
    if !w.st.o.replaceOnError then
      { w with st := w.st.handleError ref applyError }
    else
      let rv := remote.getK8sResourceVersion
      let x2 := (x.clone).setK8sResourceVersion rv
      let opts : UpdateOptions := { forceDryRun := w.st.o.dryRun }
      let (resp, w) := w.updateObject x opts
      let w := { w with st := w.st.addApiWarnings ref resp.warnings }
      let _ := x2
      match resp.err with
      | some e => retryApplyForceReplace w x hook e
      | none => w.handleResultCall resp.result hook

/-- `ApplyUtil.retryApplyWithConflicts` (apply_utils.go:184-225): with a nil
baseline the error is recorded; with `ForceApply` the object is re-patched
as-is with `ForceApply=true`; otherwise the resolver strips conflicting
fields, one warning is emitted per lost ownership, and the resolved object
is re-patched with `ForceApply=true`.  A failing re-patch is recorded and
never falls through to the replace ladder.  The `errors2.As` cast to
`*errors.StatusError` succeeds exactly when the error carries an API
conflict status. -/
def retryApplyWithConflicts (env : Env) (w : World) (x : UnstructuredObject) (hook : Bool)
    (remoteObject : Option UnstructuredObject) (applyError : GoError) : World :=
  let ref := x.getK8sRef
  match remoteObject with
  | none => { w with st := w.st.handleError ref applyError }
  | some remote =>
    let resolved : Except GoError (UnstructuredObject × List LostOwnership) :=
      if !w.st.o.forceApply then
        match applyError with
        | GoError.api (K8sError.conflict status) =>
          match env.resolveConflicts x remote status with
          | Except.error e => Except.error (GoError.text e)
          | Except.ok (x3, lostOwnership) => Except.ok (x3, lostOwnership)
        | _ => Except.error applyError
      else
        Except.ok (x, [])
    match resolved with
    | Except.error e => { w with st := w.st.handleError ref e }
    | Except.ok (x2, lostOwnership) =>
      let w := { w with st := lostOwnership.foldl (fun st (lo : LostOwnership) =>
        st.addWarning ref (lo.message ++ ". Not updating field " ++ lo.field ++
          " as we lost field ownership")) w.st }
      let options : PatchOptions := { forceDryRun := w.st.o.dryRun, forceApply := true }
      let (resp, w) := w.patchObject x2 options
      let w := { w with st := w.st.addApiWarnings ref resp.warnings }
      match resp.err with
      | some e => { w with st := w.st.handleError ref e }
      | none => w.handleResultCall resp.result hook

/-- `ApplyUtil.handleNewCRDs` (apply_utils.go:274-300): on a `NoMatch` with
the latch armed, disarm it, rediscover, and request one retry (surfacing a
failing rediscovery); on a successful patch whose result is a
CustomResourceDefinition, arm the latch and request a retry.  Returns
`(retry, err, w)`. -/
def handleNewCRDs (w : World) (x : Option UnstructuredObject) (err : Option GoError) :
    Bool × Option GoError × World :=
  match err with
  | some e =>
    if e.isNoMatch then
      if w.st.deployedNewCRD then
        let w := { w with st := { w.st with deployedNewCRD := false } }
        let (rerr, w) := w.rediscoverResources
        match rerr with
        | some re => (false, some re, w)
        | none => (true, none, w)
      else (false, some e, w)
    else (false, some e, w)
  | none =>
    match x with
    | some obj =>
      let ref := obj.getK8sRef
      if ref.gvk.group = "apiextensions.k8s.io" && ref.gvk.kind = "CustomResourceDefinition" then
        (true, none, { w with st := { w.st with deployedNewCRD := true } })
      else
        (false, none, w)
    | none => (false, none, w)

/-- `ApplyUtil.ApplyObject` (apply_utils.go:227-272): normalize, apply the
dry-run dummy-name workaround, patch, run the new-CRD handler (with at most
one retried patch), undo the dummy rename on the result, then classify the
error: success records the result; `NoMatch` and `InternalError` are
terminal; `Conflict` goes to the conflict path; anything else to the replace
path. -/
def applyObject (env : Env) (w : World) (x0 : UnstructuredObject) (replaced : Bool)
    (hook : Bool) : World :=
  let ref := x0.getK8sRef
  let x := env.fixObjectForPatch x0
  let remoteObject := env.remote ref
  let usesDummyName := w.st.o.dryRun && replaced && remoteObject.isSome
  let x := if usesDummyName then
      (x.clone).setK8sName (x.getK8sName ++ "-" ++ env.randomSuffix)
    else x
  let options : PatchOptions := { forceDryRun := w.st.o.dryRun }
  let (resp, w) := w.patchObject x options
  let (retry, err, w) := handleNewCRDs w resp.result resp.err
  let (r, apiWarnings, err, w) :=
    if retry then
      let (resp2, w) := w.patchObject x options
      (resp2.result, resp2.warnings, resp2.err, w)
    else
      (resp.result, resp.warnings, err, w)
  let r := match r with
    | some robj =>
      if usesDummyName then
        let tmpName := robj.getK8sName
        let realName := (remoteObject.getD default).getK8sName
        some ((robj.replaceNames tmpName realName).replaceNames tmpName realName)
      else some robj
    | none => none
  let w := { w with st := w.st.addApiWarnings ref apiWarnings }
  match err with
  | none => w.handleResultCall r hook
  | some e =>
    if e.isNoMatch then { w with st := w.st.handleError ref e }
    else if e.isConflict then retryApplyWithConflicts env w x hook remoteObject e
    else if e.isInternal then { w with st := w.st.handleError ref e }
    else retryApplyWithReplace w x hook remoteObject e

/-- The poll loop of `ApplyUtil.WaitReadiness` (apply_utils.go:316-368).
Each iteration consumes one entry of `times` — the elapsed time observed by
`time.Now().Sub(startTime)` in that iteration — and one scripted
`GetSingleObject` response.  `none` means the scripted run ended with the
loop still polling. -/
def waitReadinessLoop (env : Env) (ref : ObjectRef) (timeout : Nat) :
    List Nat → World → Option (Bool × World)
  | [], _ => none
  | now :: rest, w =>
    let (resp, w) := w.getSingleObject ref
    let w := { w with st := w.st.addApiWarnings ref resp.warnings }
    match resp.err with
    | some e =>
      if e.isNotFound then
        some (false, { w with st := w.st.handleError ref (GoError.text
          (ref.name ++ " disappeared while waiting for it to become ready")) })
      else
        some (false, { w with st := w.st.handleError ref e })
    | none =>
      let v := env.validate (resp.result.getD default)
      if v.ready then some (true, w)
      else if v.errors ≠ [] then
        some (false, { w with st := v.errors.foldl (fun st e =>
          st.handleError ref (GoError.text e)) w.st })
      else if timeout > 0 && now ≥ timeout then
        some (false, { w with st := w.st.handleError ref (GoError.text
          ("timed out while waiting for " ++ ref.name)) })
      else
        waitReadinessLoop env ref timeout rest w

/-- `ApplyUtil.WaitReadiness` (apply_utils.go:302-370): dry-run returns true
at once; a zero timeout is replaced by the run-wide `WaitObjectTimeout`;
then the poll loop runs. -/
def waitReadiness (env : Env) (w : World) (ref : ObjectRef) (timeout : Nat)
    (times : List Nat) : Option (Bool × World) :=
  if w.st.o.dryRun then some (true, w)
  else
    let timeout := if timeout = 0 then w.st.o.waitObjectTimeout else timeout
    waitReadinessLoop env ref timeout times w

/-- A classified hook with its phases and weight. -/
structure Hook where
  obj : UnstructuredObject
  phases : List String
  weight : Int
deriving DecidableEq, Repr

/-- Split a character list at commas. -/
def splitCommaChars : List Char → List (List Char)
  | [] => [[]]
  | c :: rest =>
    let r := splitCommaChars rest
    if c = ',' then [] :: r
    else match r with
      | [] => [[c]]
      | g :: gs => (c :: g) :: gs

/-- Comma-separated fields of a string. -/
def splitComma (s : String) : List String :=
  (splitCommaChars s.data).map String.mk

/-- Decimal digits to a number; `none` on empty input or a non-digit. -/
def digitsToNat (cs : List Char) : Option Nat :=
  match cs with
  | [] => none
  | _ =>
    cs.foldl (fun acc c =>
      match acc with
      | none => none
      | some n => if c.isDigit then some (n * 10 + (c.toNat - 48)) else none) (some 0)

/-- Parse an optionally negated decimal integer. -/
def parseIntString (s : String) : Option Int :=
  match s.data with
  | '-' :: rest => (digitsToNat rest).map (fun n => -(n : Int))
  | cs => (digitsToNat cs).map (fun n => (n : Int))

/-- Modelled from the spec: `HooksUtil.GetHook` (§4.5; the HooksUtil source
is not under src/).  An object is a hook iff it carries a hook-phase
annotation; its phases are the comma-separated annotation values and its
weight comes from the hook-weight annotation, defaulting to 0. -/
def getHook (o : UnstructuredObject) : Option Hook :=
  match o.getK8sAnnotation "kluctl.io/hook" with
  | none => none
  | some phases =>
    some { obj := o, phases := splitComma phases,
           weight := ((o.getK8sAnnotation "kluctl.io/hook-weight").bind
             parseIntString).getD 0 }

/-- Stable insertion by ascending weight (ties keep earlier insertion
first). -/
def insertByWeight (h : Hook) : List Hook → List Hook
  | [] => [h]
  | h' :: rest => if h.weight < h'.weight then h :: h' :: rest else h' :: insertByWeight h rest

/-- `DeploymentItemConfig.DeleteObjectItemConfig`: one deletion directive. -/
structure DeleteDirective where
  group : String
  version : String
  kind : String
  name : String
  ns : String
deriving DecidableEq, Repr

/-- `deployment.DeploymentItem`, reduced to what `applyDeploymentItem` and
`ApplyDeployments` read.  `checkInclusionForDeploy` is the value of the
`CheckInclusionForDeploy()` predicate for this item. -/
structure DeploymentItem where
  objects : List UnstructuredObject := []
  deleteObjects : List DeleteDirective := []
  configWaitReadiness : Option Bool := none
  waitReadiness : Bool := false
  configBarrier : Option Bool := none
  barrier : Bool := false
  checkInclusionForDeploy : Bool := true
  relToProjectItemDir : String := ""
deriving DecidableEq, Repr

/-- Modelled from the spec: `HooksUtil.DetermineHooks` (§4.5; not under
src/).  The hooks of the item whose phase set meets `phases`, ordered by
ascending weight with ties in original appearance order. -/
def determineHooks (d : DeploymentItem) (phases : List String) : List Hook :=
  let hooks := (d.objects.filterMap getHook).filter
    (fun h => h.phases.any (fun p => p ∈ phases))
  hooks.foldl (fun acc h => insertByWeight h acc) []

/-- Modelled from the spec: `HooksUtil.RunHooks` (§4.5; not under src/)
applies the hooks sequentially through the apply state machine with the
`hook` flag set.  Hook deletion-policy handling is omitted: no claim
depends on it. -/
def runHooks (env : Env) (w : World) (hooks : List Hook) : World :=
  hooks.foldl (fun w h => applyObject env w h.obj false true) w

/-- Modelled from the spec: `utils.ParseBoolOrFalse` (not under src/). -/
def parseBoolOrFalse : Option String → Bool
  | some s => s = "true" || s = "1"
  | none => false

/-- The `toDelete` expansion of `applyDeploymentItem`
(apply_utils.go:373-383): each directive is expanded through
`k.GetGVKs`. -/
def computeToDelete (env : Env) (d : DeploymentItem) : List ObjectRef :=
  d.deleteObjects.foldl (fun acc x =>
    acc ++ (env.getGVKs x.group x.version x.kind).map
      (fun gvk => { gvk := gvk, name := x.name, ns := x.ns })) []

/-- The initial-deploy flag of `applyDeploymentItem`
(apply_utils.go:387-392): starts true and is cleared by any desired object
present in the remote cache. -/
def initialDeployFlag (env : Env) (d : DeploymentItem) : Bool :=
  d.objects.foldl (fun acc o =>
    if (env.remote o.getK8sRef).isSome then false else acc) true

/-- The hook-list selection of `applyDeploymentItem`
(apply_utils.go:402-410).  In the upgrade branch the source assigns
`postHooks` twice and never assigns `preHooks`, so `preHooks` keeps its nil
zero value; the model reproduces this. -/
def selectHookLists (d : DeploymentItem) (initialDeploy : Bool) :
    List Hook × List Hook :=
  if initialDeploy then
    (determineHooks d ["pre-deploy-initial", "pre-deploy"],
     determineHooks d ["post-deploy-initial", "post-deploy"])
  else
    let postHooks := determineHooks d ["pre-deploy-upgrade", "pre-deploy"]
    let postHooks := determineHooks d ["post-deploy-upgrade", "post-deploy"]
    let _ := postHooks
    ([], postHooks)

/-- The per-object loop of `applyDeploymentItem` (apply_utils.go:436-455):
break on `abortSignal`, apply the object, then optionally block on
readiness (consuming one poll schedule; an exhausted or missing wait
outcome leaves the world as after the apply). -/
def applyLoop (env : Env) (d : DeploymentItem) : List UnstructuredObject → World → World
  | [], w => w
  | o :: rest, w =>
    if w.st.abortSignal then w
    else
      let w := applyObject env w o false false
      let doWait := (d.configWaitReadiness.getD false) || d.waitReadiness ||
        parseBoolOrFalse (o.getK8sAnnotation "kluctl.io/wait-readiness")
      let w :=
        if !w.st.o.noWait && doWait then
          let times := w.pollSchedules.headD []
          let w := { w with pollSchedules := w.pollSchedules.tail }
          match waitReadiness env w o.getK8sRef 0 times with
          | some (_, w') => w'
          | none => w
        else w
      applyLoop env d rest w

/-- `ApplyUtil.applyDeploymentItem` (apply_utils.go:372-481): expand
`toDelete`, compute the initial-deploy flag, split regular objects from
hooks, select hook lists, then — only if `CheckInclusionForDeploy()` holds —
delete the expanded refs in order, run pre-hooks, apply the objects, and run
post-hooks.  An excluded item is marked "Skipped" and returns before any
deletion. -/
def applyDeploymentItem (env : Env) (w : World) (d : DeploymentItem) : World :=
  let toDelete := computeToDelete env d
  let initialDeploy := initialDeployFlag env d
  let applyObjects := d.objects.filter (fun o => (getHook o).isNone)
  let (preHooks, postHooks) := selectHookLists d initialDeploy
  if !d.checkInclusionForDeploy then
    { w with calls := w.calls ++ [Call.itemSkipped d.relToProjectItemDir] }
  else
    let w := toDelete.foldl (fun w ref => (deleteObject w ref false).2) w
    let w := runHooks env w preHooks
    let w := applyLoop env d applyObjects w
    runHooks env w postHooks

/-- The dispatch loop of `ApplyUtil.ApplyDeployments`
(apply_utils.go:483-518), linearized: dispatching stops at the first item
for which `abortSignal` is already set; each dispatched item runs
`applyDeploymentItem`.  (The concurrent barrier semantics is modelled
separately by `ValidSched`.) -/
def applyDeployments (env : Env) (w : World) : List DeploymentItem → World
  | [] => w
  | d :: rest =>
    if w.st.abortSignal then w
    else
      let w := { w with calls := w.calls ++ [Call.itemDispatched d.relToProjectItemDir] }
      let w := applyDeploymentItem env w d
      applyDeployments env w rest

/-- The retry loop of `ApplyUtil.ReplaceObject` (apply_utils.go:520-567):
read the remote (or use `firstVersion` on the first pass), clone, run the
callback; an unchanged object is recorded as the result; otherwise `Update`
with zero-value options (`k8s.UpdateOptions{}`, line 552); a conflict
retries the loop.  When `remote` is nil the source passes nil to
`handleResult` (line 536).  `fuel` bounds the conflict retries; the zero
case mirrors the unreachable tail at line 566. -/
def replaceObjectLoop (ref : ObjectRef) (firstVersion : Option UnstructuredObject)
    (cb : UnstructuredObject → Except String UnstructuredObject) :
    Nat → Bool → World → World
  | 0, _, w => { w with st := w.st.handleError ref (GoError.text "unexpected end of loop") }
  | fuel + 1, firstCall, w =>
    let useFirst := firstCall && firstVersion.isSome
    let (remoteRes, w) :=
      if useFirst then (Except.ok firstVersion, w)
      else
        let (resp, w) := w.getSingleObject ref
        let w := { w with st := w.st.addApiWarnings ref resp.warnings }
        match resp.err with
        | some e =>
          if e.isNotFound then ((Except.ok resp.result :
            Except GoError (Option UnstructuredObject)), w)
          else (Except.error e, w)
        | none => (Except.ok resp.result, w)
    match remoteRes with
    | Except.error e => { w with st := w.st.handleError ref e }
    | Except.ok none => w.handleResultCall none false
    | Except.ok (some remote) =>
      let remoteCopy := remote.clone
      match cb remoteCopy with
      | Except.error msg => { w with st := w.st.handleError ref (GoError.text msg) }
      | Except.ok modified =>
        if remote = modified then w.handleResultCall (some remote) false
        else
          let (resp, w) := w.updateObject modified {}
          let w := { w with st := w.st.addApiWarnings ref resp.warnings }
          match resp.err with
          | some e =>
            if e.isConflict then replaceObjectLoop ref firstVersion cb fuel false w
            else { w with st := w.st.handleError ref e }
          | none => w.handleResultCall resp.result false

/-- `ApplyUtil.ReplaceObject` with enough fuel that the zero-fuel case is
never reached on a scripted run (each conflict retry consumes one update
response; an empty update script answers success). -/
def replaceObject (w : World) (ref : ObjectRef) (firstVersion : Option UnstructuredObject)
    (cb : UnstructuredObject → Except String UnstructuredObject) : World :=
  replaceObjectLoop ref firstVersion cb (w.updates.length + 1) true w

/-- An observable event of the concurrent scheduler
(`ApplyDeployments`, apply_utils.go:483-518): the dispatch of item `i`
(the `go func` spawn after `wg.Add(1)`), the application of the `k`-th
object of item `i` inside its worker, and the completion of item `i`'s
worker (`wg.Done`). -/
inductive SchedEvent where
  | dispatch (i : Nat)
  | work (i : Nat) (k : Nat)
  | complete (i : Nat)
deriving DecidableEq, Repr

/-- Position of an event in a trace (`length` when absent; traces are
required to be duplicate-free so the position is unique). -/
def schedPos (tr : List SchedEvent) (e : SchedEvent) : Nat := tr.indexOf e

/-- The interleavings `ApplyDeployments` can produce, as constraints on a
finished event trace:
* events are pairwise distinct;
* dispatches follow the loop order over the item list, and the dispatched
  set is downward closed (the loop only ever stops early, via `break`);
* a worker's object applications happen strictly between its dispatch and
  its completion, and every dispatched worker completes (the final
  `wg.Wait()`);
* after dispatching a barrier item `b` the loop blocks in `wg.Wait()`, so
  every later dispatch comes after the completion of every worker spawned
  up to and including `b`. -/
def validSched (barriers : List Bool) (tr : List SchedEvent) : Bool :=
  decide tr.Nodup &&
  (tr.all fun e => match e with
    | SchedEvent.dispatch j =>
      (List.range j).all fun i =>
        decide (SchedEvent.dispatch i ∈ tr) &&
        decide (schedPos tr (SchedEvent.dispatch i) < schedPos tr (SchedEvent.dispatch j))
    | _ => true) &&
  (tr.all fun e => match e with
    | SchedEvent.work i _ =>
      decide (SchedEvent.dispatch i ∈ tr) && decide (SchedEvent.complete i ∈ tr) &&
      decide (schedPos tr (SchedEvent.dispatch i) < schedPos tr e) &&
      decide (schedPos tr e < schedPos tr (SchedEvent.complete i))
    | _ => true) &&
  (tr.all fun e => match e with
    | SchedEvent.complete i =>
      decide (SchedEvent.dispatch i ∈ tr) &&
      decide (schedPos tr (SchedEvent.dispatch i) < schedPos tr e)
    | SchedEvent.dispatch i => decide (SchedEvent.complete i ∈ tr)
    | _ => true) &&
  (tr.all fun e => match e with
    | SchedEvent.dispatch i =>
      (List.range i).all fun b =>
        !(barriers.getD b false) ||
        ((List.range (b + 1)).all fun j =>
          !(decide (SchedEvent.dispatch j ∈ tr)) ||
          decide (schedPos tr (SchedEvent.complete j) < schedPos tr (SchedEvent.dispatch i)))
    | _ => true)

/-- Bookkeeping invariant relating a world to the world after one modelled
operation: the run options never change, `abortSignal` is monotone and is
raised from false only when the run has `AbortOnError`, and the call trace
only grows at its tail. -/
def StepOK (w w' : World) : Prop :=
  w'.st.o = w.st.o ∧
  (w.st.abortSignal = true → w'.st.abortSignal = true) ∧
  (w'.st.abortSignal = true → w.st.abortSignal = true ∨ w.st.o.abortOnError = true) ∧
  ∃ t, w'.calls = w.calls ++ t

/-- The operations of the orchestrator that mutate the shared run state,
used to state run-wide invariants uniformly. -/
inductive Op where
  | handleErrorOp (ref : ObjectRef) (e : GoError)
  | deleteObjectOp (ref : ObjectRef) (hook : Bool)
  | applyObjectOp (env : Env) (x : UnstructuredObject) (replaced : Bool) (hook : Bool)
  | waitReadinessOp (env : Env) (ref : ObjectRef) (timeout : Nat) (times : List Nat)
  | runHooksOp (env : Env) (hooks : List Hook)
  | applyDeploymentItemOp (env : Env) (d : DeploymentItem)
  | applyDeploymentsOp (env : Env) (items : List DeploymentItem)
  | replaceObjectOp (ref : ObjectRef) (firstVersion : Option UnstructuredObject)
      (cb : UnstructuredObject → Except String UnstructuredObject)

/-- Run one operation on the world (a readiness wait whose scripted polls
run out leaves the world of the last poll). -/
def runOp : Op → World → World
  | Op.handleErrorOp ref e, w => { w with st := w.st.handleError ref e }
  | Op.deleteObjectOp ref hook, w => (deleteObject w ref hook).2
  | Op.applyObjectOp env x replaced hook, w => applyObject env w x replaced hook
  | Op.waitReadinessOp env ref timeout times, w =>
    match waitReadiness env w ref timeout times with
    | some (_, w') => w'
    | none => w
  | Op.runHooksOp env hooks, w => runHooks env w hooks
  | Op.applyDeploymentItemOp env d, w => applyDeploymentItem env w d
  | Op.applyDeploymentsOp env items, w => applyDeployments env w items
  | Op.replaceObjectOp ref firstVersion cb, w => replaceObject w ref firstVersion cb

/-! ### Concrete fixtures -/

def gvkDeploy : GVK := { group := "apps", version := "v1", kind := "Deployment" }

def refApp : ObjectRef := { gvk := gvkDeploy, name := "app", ns := "ns" }

def objApp : UnstructuredObject :=
  { ref := refApp, resourceVersion := "1", annotations := [], payload := 0 }

def refHookPre : ObjectRef := { gvk := gvkDeploy, name := "pre-hook-job", ns := "ns" }

/-- A hook object annotated with the `pre-deploy-upgrade` phase. -/
def objHookPre : UnstructuredObject :=
  { ref := refHookPre, resourceVersion := "",
    annotations := [("kluctl.io/hook", "pre-deploy-upgrade")], payload := 0 }

/-- Environment in which `objApp` already exists remotely (upgrade case). -/
def envUpgrade : Env :=
  { remote := fun r => if r = refApp then some objApp else none,
    getGVKs := fun g v k => [{ group := g, version := v, kind := k }],
    resolveConflicts := fun x _ _ => Except.ok (x, []),
    validate := fun _ => {} }

/-- Environment with an empty remote cache. -/
def envPlain : Env :=
  { remote := fun _ => none,
    getGVKs := fun g v k => [{ group := g, version := v, kind := k }],
    resolveConflicts := fun x _ _ => Except.ok (x, []),
    validate := fun _ => {} }

def itemUpgrade : DeploymentItem := { objects := [objApp, objHookPre] }

def wPlain : World := { st := newApplyUtil {} }

def objStale : UnstructuredObject :=
  { ref := refApp, resourceVersion := "1", annotations := [], payload := 7 }

def objRemote : UnstructuredObject := { objStale with resourceVersion := "42" }

def wReplace : World := { st := newApplyUtil { replaceOnError := true } }

def wDry : World := { st := newApplyUtil { dryRun := true } }

def bumpPayload : UnstructuredObject → Except String UnstructuredObject :=
  fun o => Except.ok { o with payload := o.payload + 1 }

def wNotFound : World :=
  { st := newApplyUtil {}, gets := [{ err := some (GoError.api K8sError.notFound) }] }

def itemExcluded : DeploymentItem :=
  { deleteObjects := [{ group := "", version := "v1", kind := "ConfigMap", name := "cm", ns := "ns" }],
    checkInclusionForDeploy := false,
    relToProjectItemDir := "excluded-item" }

/-- A concrete valid schedule for items `[A, B(barrier), C]` in which the
barrier item `B` applies an object before `A`'s worker completes. -/
def schedTr0 : List SchedEvent :=
  [SchedEvent.dispatch 0, SchedEvent.dispatch 1, SchedEvent.work 1 0,
   SchedEvent.work 0 0, SchedEvent.complete 0, SchedEvent.complete 1,
   SchedEvent.dispatch 2, SchedEvent.work 2 0, SchedEvent.complete 2]

def schedBarriers0 : List Bool := [false, true, false]

/-- World with the latch armed, one successful rediscovery scripted, and a
patch script of one `NoMatch` failure followed by one success. -/
def wArm : World :=
  { st := newApplyUtil {},
    patches := [{ err := some (GoError.api K8sError.noMatch) }, { result := some objApp }],
    rediscoveries := [none] }

/-- World with the latch armed and a failing rediscovery scripted. -/
def wArmFail : World :=
  { st := newApplyUtil {},
    rediscoveries := [some (GoError.text "rediscovery failed")] }

/-- World with the latch disarmed and one `NoMatch` patch failure
scripted. -/
def wDisarmed : World :=
  { st := { newApplyUtil {} with deployedNewCRD := false },
    patches := [{ err := some (GoError.api K8sError.noMatch) }] }

/-- A CustomResourceDefinition object. -/
def crdObj : UnstructuredObject :=
  { ref :=
      { gvk := { group := "apiextensions.k8s.io", version := "v1", kind := "CustomResourceDefinition" },
        name := "foos.example.com",
        ns := "" },
    resourceVersion := "",
    annotations := [],
    payload := 0 }

/-- Environment whose conflict resolver strips `spec.replicas` and reports
one lost ownership. -/
def envResolve : Env :=
  { remote := fun _ => none,
    getGVKs := fun g v k => [{ group := g, version := v, kind := k }],
    resolveConflicts := fun x _ _ =>
      Except.ok ({ x with payload := 99 },
        [{ field := "spec.replicas", message := "conflict with manager kubectl" }]),
    validate := fun _ => {} }

/-- World with `ForceApply` set and one failing re-patch scripted. -/
def wForce : World :=
  { st := newApplyUtil { forceApply := true },
    patches := [{ err := some (GoError.api (K8sError.otherApi "boom")) }] }

/-- World without `ForceApply` and one failing re-patch scripted. -/
def wNoForce : World :=
  { st := newApplyUtil {},
    patches := [{ err := some (GoError.api (K8sError.otherApi "boom")) }] }

/-- World whose first patch fails with an internal error. -/
def wInternal : World :=
  { st := newApplyUtil {},
    patches := [{ err := some (GoError.api K8sError.internalError) }] }

/-- Environment whose validator reports ready. -/
def envReady : Env :=
  { remote := fun _ => none,
    getGVKs := fun g v k => [{ group := g, version := v, kind := k }],
    resolveConflicts := fun x _ _ => Except.ok (x, []),
    validate := fun _ => { ready := true } }

/-- Environment whose validator reports one validation error. -/
def envVErr : Env :=
  { remote := fun _ => none,
    getGVKs := fun g v k => [{ group := g, version := v, kind := k }],
    resolveConflicts := fun x _ _ => Except.ok (x, []),
    validate := fun _ => { errors := ["container crashed"] } }

/-- World whose next get reports a server failure. -/
def wWaitErr : World :=
  { st := newApplyUtil { waitObjectTimeout := 30 },
    gets := [{ err := some (GoError.api K8sError.internalError) }] }

/-- World whose next get returns the object. -/
def wWaitOk : World :=
  { st := newApplyUtil { waitObjectTimeout := 30 },
    gets := [{ result := some objApp }] }

/-- The excluded item with the inclusion predicate flipped to true. -/
def itemIncluded : DeploymentItem :=
  { itemExcluded with checkInclusionForDeploy := true, relToProjectItemDir := "included-item" }

/-- World of a run with `AbortOnError` whose `abortSignal` is already set. -/
def wAborted : World :=
  { st := { newApplyUtil { abortOnError := true } with abortSignal := true } }

/-- World of a run with `AbortOnError` before any error. -/
def wAbortArmed : World := { st := newApplyUtil { abortOnError := true } }

/-! ### Projection lemmas for the state operations -/

theorem handleError_o (st : ApplyState) (ref : ObjectRef) (e : GoError) :
    (st.handleError ref e).o = st.o := by
  unfold ApplyState.handleError; split <;> rfl

theorem handleError_errors (st : ApplyState) (ref : ObjectRef) (e : GoError) :
    (st.handleError ref e).errors = st.errors ++ [(ref, e)] := by
  unfold ApplyState.handleError; split <;> rfl

theorem handleError_warnings (st : ApplyState) (ref : ObjectRef) (e : GoError) :
    (st.handleError ref e).warnings = st.warnings := by
  unfold ApplyState.handleError; split <;> rfl

theorem handleError_abort (st : ApplyState) (ref : ObjectRef) (e : GoError) :
    (st.handleError ref e).abortSignal = (st.abortSignal || st.o.abortOnError) := by
  unfold ApplyState.handleError
  split <;> simp_all

theorem handleError_deployedNewCRD (st : ApplyState) (ref : ObjectRef) (e : GoError) :
    (st.handleError ref e).deployedNewCRD = st.deployedNewCRD := by
  unfold ApplyState.handleError; split <;> rfl

theorem handleResult_o (st : ApplyState) (x : UnstructuredObject) (hook : Bool) :
    (st.handleResult x hook).o = st.o := by
  unfold ApplyState.handleResult; split <;> rfl

theorem handleResult_abort (st : ApplyState) (x : UnstructuredObject) (hook : Bool) :
    (st.handleResult x hook).abortSignal = st.abortSignal := by
  unfold ApplyState.handleResult; split <;> rfl

theorem handleResult_errors (st : ApplyState) (x : UnstructuredObject) (hook : Bool) :
    (st.handleResult x hook).errors = st.errors := by
  unfold ApplyState.handleResult; split <;> rfl

theorem handleResult_warnings (st : ApplyState) (x : UnstructuredObject) (hook : Bool) :
    (st.handleResult x hook).warnings = st.warnings := by
  unfold ApplyState.handleResult; split <;> rfl

theorem handleResult_deployedNewCRD (st : ApplyState) (x : UnstructuredObject) (hook : Bool) :
    (st.handleResult x hook).deployedNewCRD = st.deployedNewCRD := by
  unfold ApplyState.handleResult; split <;> rfl

theorem handleResultCall_st_o (w : World) (x : Option UnstructuredObject) (hook : Bool) :
    (w.handleResultCall x hook).st.o = w.st.o := by
  cases x <;> simp [World.handleResultCall, handleResult_o]

theorem handleResultCall_abort (w : World) (x : Option UnstructuredObject) (hook : Bool) :
    (w.handleResultCall x hook).st.abortSignal = w.st.abortSignal := by
  cases x <;> simp [World.handleResultCall, handleResult_abort]

theorem handleResultCall_errors (w : World) (x : Option UnstructuredObject) (hook : Bool) :
    (w.handleResultCall x hook).st.errors = w.st.errors := by
  cases x <;> simp [World.handleResultCall, handleResult_errors]

theorem handleResultCall_warnings (w : World) (x : Option UnstructuredObject) (hook : Bool) :
    (w.handleResultCall x hook).st.warnings = w.st.warnings := by
  cases x <;> simp [World.handleResultCall, handleResult_warnings]

theorem handleResultCall_calls (w : World) (x : Option UnstructuredObject) (hook : Bool) :
    (w.handleResultCall x hook).calls = w.calls ++ [Call.handleResult x hook] := by
  cases x <;> rfl

/-- Warnings accumulated by the lost-ownership fold of
`retryApplyWithConflicts`. -/
theorem foldl_addWarning_warnings (l : List LostOwnership) (st : ApplyState)
    (ref : ObjectRef) :
    (l.foldl (fun st lo =>
        st.addWarning ref (lo.message ++ ". Not updating field " ++ lo.field ++
          " as we lost field ownership")) st).warnings =
      st.warnings ++ l.map (fun lo => (ref, lo.message ++ ". Not updating field " ++
        lo.field ++ " as we lost field ownership")) := by
  induction l generalizing st with
  | nil => simp
  | cons a l ih => rw [List.foldl_cons, ih]; simp [ApplyState.addWarning]

theorem foldl_addWarning_errors (l : List LostOwnership) (st : ApplyState)
    (ref : ObjectRef) :
    (l.foldl (fun st lo =>
        st.addWarning ref (lo.message ++ ". Not updating field " ++ lo.field ++
          " as we lost field ownership")) st).errors = st.errors := by
  induction l generalizing st with
  | nil => rfl
  | cons a l ih => rw [List.foldl_cons, ih]; simp [ApplyState.addWarning]

theorem foldl_addWarning_o (l : List LostOwnership) (st : ApplyState)
    (ref : ObjectRef) :
    (l.foldl (fun st lo =>
        st.addWarning ref (lo.message ++ ". Not updating field " ++ lo.field ++
          " as we lost field ownership")) st).o = st.o := by
  induction l generalizing st with
  | nil => rfl
  | cons a l ih => rw [List.foldl_cons, ih]; simp [ApplyState.addWarning]

theorem foldl_addWarning_abort (l : List LostOwnership) (st : ApplyState)
    (ref : ObjectRef) :
    (l.foldl (fun st lo =>
        st.addWarning ref (lo.message ++ ". Not updating field " ++ lo.field ++
          " as we lost field ownership")) st).abortSignal = st.abortSignal := by
  induction l generalizing st with
  | nil => rfl
  | cons a l ih => rw [List.foldl_cons, ih]; simp [ApplyState.addWarning]

/-! ### StepOK lemmas -/

theorem StepOK.refl (w : World) : StepOK w w :=
  ⟨Eq.refl _, id, Or.inl, [], by simp⟩

theorem StepOK.trans {w w' w'' : World} (h1 : StepOK w w') (h2 : StepOK w' w'') :
    StepOK w w'' := by
  obtain ⟨o1, m1, s1, t1, c1⟩ := h1
  obtain ⟨o2, m2, s2, t2, c2⟩ := h2
  refine ⟨o2.trans o1, fun h => m2 (m1 h), fun h => ?_, t1 ++ t2, by rw [c2, c1, List.append_assoc]⟩
  rcases s2 h with h' | h'
  · exact s1 h'
  · right; rwa [o1] at h'

/-- A single operation satisfies `StepOK` when it keeps the options, either
keeps `abortSignal` or moves it to `abortSignal || abortOnError`, and only
appends calls. -/
theorem StepOK.mk' {w w' : World} (ho : w'.st.o = w.st.o)
    (ha : w'.st.abortSignal = w.st.abortSignal ∨
      w'.st.abortSignal = (w.st.abortSignal || w.st.o.abortOnError))
    (hc : ∃ t, w'.calls = w.calls ++ t) : StepOK w w' := by
  refine ⟨ho, ?_, ?_, hc⟩
  · intro h
    rcases ha with h' | h' <;> rw [h'] <;> simp [h]
  · intro h
    rcases ha with h' | h'
    · rw [h'] at h; exact Or.inl h
    · rw [h'] at h
      simp only [Bool.or_eq_true] at h
      exact h

theorem stepOK_patchObject (w : World) (x : UnstructuredObject) (opts : PatchOptions) :
    StepOK w (w.patchObject x opts).2 :=
  StepOK.mk' rfl (Or.inl rfl) ⟨[Call.patch x opts], rfl⟩

theorem stepOK_updateObject (w : World) (x : UnstructuredObject) (opts : UpdateOptions) :
    StepOK w (w.updateObject x opts).2 :=
  StepOK.mk' rfl (Or.inl rfl) ⟨[Call.update x opts], rfl⟩

theorem stepOK_handleResultCall (w : World) (x : Option UnstructuredObject) (hook : Bool) :
    StepOK w (w.handleResultCall x hook) :=
  StepOK.mk' (handleResultCall_st_o w x hook) (Or.inl (handleResultCall_abort w x hook))
    ⟨[Call.handleResult x hook], handleResultCall_calls w x hook⟩

theorem stepOK_deleteObject (w : World) (ref : ObjectRef) (hook : Bool) :
    StepOK w (deleteObject w ref hook).2 := by
  unfold deleteObject World.deleteSingleObject
  dsimp only
  repeat' split
  all_goals refine StepOK.mk' (by simp [ApplyState.addApiWarnings, handleError_o]) ?_ ⟨_, rfl⟩
  all_goals first
    | exact Or.inl rfl
    | exact Or.inr (by simp [ApplyState.addApiWarnings, handleError_abort])

theorem deleteObject_calls (w : World) (ref : ObjectRef) (hook : Bool) :
    (deleteObject w ref hook).2.calls =
      w.calls ++ [Call.delete ref { forceDryRun := w.st.o.dryRun }] := by
  unfold deleteObject World.deleteSingleObject
  dsimp only
  repeat' split
  all_goals rfl

theorem deleteObject_st_o (w : World) (ref : ObjectRef) (hook : Bool) :
    (deleteObject w ref hook).2.st.o = w.st.o :=
  (stepOK_deleteObject w ref hook).1

theorem stepOK_retryApplyForceReplace (w : World) (x : UnstructuredObject) (hook : Bool)
    (e : GoError) : StepOK w (retryApplyForceReplace w x hook e) := by
  unfold retryApplyForceReplace
  dsimp only
  split
  · exact StepOK.mk' (handleError_o _ _ _)
      (Or.inr (by simp [handleError_abort])) ⟨[], by simp⟩
  · rcases hdel : deleteObject w x.getK8sRef hook with ⟨ok, w1⟩
    have h1 : StepOK w w1 := by
      have h := stepOK_deleteObject w x.getK8sRef hook
      rwa [hdel] at h
    dsimp only
    split
    · exact h1
    · split
      · refine h1.trans ?_
        unfold World.patchObject
        dsimp only
        split
        · exact StepOK.mk' (by simp [ApplyState.addApiWarnings, handleError_o])
            (Or.inr (by simp [ApplyState.addApiWarnings, handleError_abort])) ⟨_, rfl⟩
        · exact (StepOK.mk' (by simp [ApplyState.addApiWarnings])
            (Or.inl (by simp [ApplyState.addApiWarnings])) ⟨_, rfl⟩).trans
            (stepOK_handleResultCall _ _ _)
      · exact h1.trans (stepOK_handleResultCall _ _ _)

theorem stepOK_retryApplyWithReplace (w : World) (x : UnstructuredObject) (hook : Bool)
    (remoteObject : Option UnstructuredObject) (e : GoError) :
    StepOK w (retryApplyWithReplace w x hook remoteObject e) := by
  unfold retryApplyWithReplace
  dsimp only
  split
  · exact StepOK.mk' (handleError_o _ _ _)
      (Or.inr (by simp [handleError_abort])) ⟨[], by simp⟩
  · split
    · exact StepOK.mk' (handleError_o _ _ _)
        (Or.inr (by simp [handleError_abort])) ⟨[], by simp⟩
    · unfold World.updateObject
      dsimp only
      split
      · exact (StepOK.mk' (by simp [ApplyState.addApiWarnings])
          (Or.inl (by simp [ApplyState.addApiWarnings])) ⟨_, rfl⟩).trans
          (stepOK_retryApplyForceReplace _ _ _ _)
      · exact (StepOK.mk' (by simp [ApplyState.addApiWarnings])
          (Or.inl (by simp [ApplyState.addApiWarnings])) ⟨_, rfl⟩).trans
          (stepOK_handleResultCall _ _ _)

theorem stepOK_retryApplyWithConflicts (env : Env) (w : World) (x : UnstructuredObject)
    (hook : Bool) (remoteObject : Option UnstructuredObject) (e : GoError) :
    StepOK w (retryApplyWithConflicts env w x hook remoteObject e) := by
  unfold retryApplyWithConflicts World.patchObject World.handleResultCall
  dsimp only
  split
  · exact StepOK.mk' (handleError_o _ _ _)
      (Or.inr (by simp [handleError_abort])) ⟨[], by simp⟩
  · split
    · exact StepOK.mk' (handleError_o _ _ _)
        (Or.inr (by simp [handleError_abort])) ⟨[], by simp⟩
    · split
      · exact StepOK.mk'
          (by simp [ApplyState.addApiWarnings, handleError_o, foldl_addWarning_o])
          (Or.inr (by simp [ApplyState.addApiWarnings, handleError_abort,
            foldl_addWarning_abort, foldl_addWarning_o]))
          ⟨_, rfl⟩
      · split
        · exact StepOK.mk'
            (by simp [ApplyState.addApiWarnings, foldl_addWarning_o, handleResult_o])
            (Or.inl (by simp [ApplyState.addApiWarnings, foldl_addWarning_abort,
              handleResult_abort]))
            ⟨_, List.append_assoc _ _ _⟩
        · exact StepOK.mk'
            (by simp [ApplyState.addApiWarnings, foldl_addWarning_o])
            (Or.inl (by simp [ApplyState.addApiWarnings, foldl_addWarning_abort]))
            ⟨_, List.append_assoc _ _ _⟩

theorem stepOK_handleNewCRDs (w : World) (x : Option UnstructuredObject)
    (err : Option GoError) : StepOK w (handleNewCRDs w x err).2.2 := by
  unfold handleNewCRDs World.rediscoverResources
  try dsimp only
  repeat' split
  all_goals refine StepOK.mk' ?_ ?_ ?_
  all_goals first
    | (refine Or.inl ?_; rfl)
    | exact ⟨_, rfl⟩
    | exact ⟨[], by simp⟩
    | rfl

theorem stepOK_applyObject (env : Env) (w : World) (x : UnstructuredObject)
    (replaced : Bool) (hook : Bool) : StepOK w (applyObject env w x replaced hook) := by
  unfold applyObject
  try dsimp only
  generalize (if (w.st.o.dryRun && replaced && (env.remote x.getK8sRef).isSome) = true then
      (env.fixObjectForPatch x).clone.setK8sName
        ((env.fixObjectForPatch x).getK8sName ++ "-" ++ env.randomSuffix)
    else env.fixObjectForPatch x) = xp
  rcases hp1 : w.patchObject xp { forceDryRun := w.st.o.dryRun, forceApply := false }
    with ⟨resp, wA⟩
  have hA : StepOK w wA := by
    have h := stepOK_patchObject w xp { forceDryRun := w.st.o.dryRun, forceApply := false }
    rwa [hp1] at h
  try dsimp only
  rcases hnc : handleNewCRDs wA resp.result resp.err with ⟨retry, err2, wB⟩
  have hB : StepOK w wB := by
    have h := stepOK_handleNewCRDs wA resp.result resp.err
    rw [hnc] at h
    exact hA.trans h
  try dsimp only
  cases retry with
  | true =>
    rw [if_pos rfl]
    rcases hp2 : wB.patchObject xp { forceDryRun := w.st.o.dryRun, forceApply := false }
      with ⟨resp2, wC⟩
    have hC : StepOK w wC := by
      have h := stepOK_patchObject wB xp { forceDryRun := w.st.o.dryRun, forceApply := false }
      rw [hp2] at h
      exact hB.trans h
    have hD : StepOK w { wC with st := wC.st.addApiWarnings x.getK8sRef resp2.warnings } :=
      hC.trans (StepOK.mk' (by simp [ApplyState.addApiWarnings])
        (Or.inl (by simp [ApplyState.addApiWarnings])) ⟨[], by simp⟩)
    try dsimp only
    repeat' split
    all_goals first
      | exact hD.trans (stepOK_handleResultCall _ _ _)
      | exact hD.trans (stepOK_retryApplyWithConflicts _ _ _ _ _ _)
      | exact hD.trans (stepOK_retryApplyWithReplace _ _ _ _ _)
      | exact hD.trans (StepOK.mk' (handleError_o _ _ _)
          (Or.inr (by simp [handleError_abort])) ⟨[], by simp⟩)
  | false =>
    rw [if_neg Bool.false_ne_true]
    have hD : StepOK w { wB with st := wB.st.addApiWarnings x.getK8sRef resp.warnings } :=
      hB.trans (StepOK.mk' (by simp [ApplyState.addApiWarnings])
        (Or.inl (by simp [ApplyState.addApiWarnings])) ⟨[], by simp⟩)
    try dsimp only
    repeat' split
    all_goals first
      | exact hD.trans (stepOK_handleResultCall _ _ _)
      | exact hD.trans (stepOK_retryApplyWithConflicts _ _ _ _ _ _)
      | exact hD.trans (stepOK_retryApplyWithReplace _ _ _ _ _)
      | exact hD.trans (StepOK.mk' (handleError_o _ _ _)
          (Or.inr (by simp [handleError_abort])) ⟨[], by simp⟩)

theorem foldl_handleError_o (es : List String) (st : ApplyState) (ref : ObjectRef) :
    (es.foldl (fun st e => st.handleError ref (GoError.text e)) st).o = st.o := by
  induction es generalizing st with
  | nil => rfl
  | cons a l ih => rw [List.foldl_cons, ih]; rw [handleError_o]

theorem foldl_handleError_abort (es : List String) (st : ApplyState) (ref : ObjectRef)
    (h : es ≠ []) :
    (es.foldl (fun st e => st.handleError ref (GoError.text e)) st).abortSignal =
      (st.abortSignal || st.o.abortOnError) := by
  induction es generalizing st with
  | nil => cases h rfl
  | cons a l ih =>
    rw [List.foldl_cons]
    by_cases hl : l = []
    · subst hl; simp [handleError_abort]
    · rw [ih _ hl, handleError_abort, handleError_o, Bool.or_assoc, Bool.or_self]

theorem stepOK_waitReadinessLoop (env : Env) (ref : ObjectRef) (timeout : Nat) :
    ∀ (times : List Nat) (w : World) (b : Bool) (w' : World),
      waitReadinessLoop env ref timeout times w = some (b, w') → StepOK w w' := by
  intro times
  induction times with
  | nil => intro w b w' h; cases h
  | cons now rest ih =>
    intro w b w' h
    unfold waitReadinessLoop World.getSingleObject at h
    dsimp only at h
    split at h
    · split at h <;> injection h with h <;> cases h
      · exact StepOK.mk'
          (by simp [ApplyState.addApiWarnings, handleError_o])
          (Or.inr (by simp [ApplyState.addApiWarnings, handleError_abort])) ⟨_, rfl⟩
      · exact StepOK.mk'
          (by simp [ApplyState.addApiWarnings, handleError_o])
          (Or.inr (by simp [ApplyState.addApiWarnings, handleError_abort])) ⟨_, rfl⟩
    · split at h
      · injection h with h; cases h
        exact StepOK.mk' (by simp [ApplyState.addApiWarnings])
          (Or.inl (by simp [ApplyState.addApiWarnings])) ⟨_, rfl⟩
      · split at h
        · injection h with h; cases h
          rename_i hes
          refine StepOK.mk'
            (by simp [ApplyState.addApiWarnings, foldl_handleError_o]) (Or.inr ?_) ⟨_, rfl⟩
          rw [foldl_handleError_abort _ _ _ (by simpa using hes)]
          simp [ApplyState.addApiWarnings]
        · split at h
          · injection h with h; cases h
            exact StepOK.mk'
              (by simp [ApplyState.addApiWarnings, handleError_o])
              (Or.inr (by simp [ApplyState.addApiWarnings, handleError_abort])) ⟨_, rfl⟩
          · refine StepOK.trans (StepOK.mk' (by simp [ApplyState.addApiWarnings])
              (Or.inl (by simp [ApplyState.addApiWarnings])) ⟨_, rfl⟩) (ih _ _ _ h)

theorem stepOK_waitReadiness (env : Env) (w : World) (ref : ObjectRef) (timeout : Nat)
    (times : List Nat) (b : Bool) (w' : World)
    (h : waitReadiness env w ref timeout times = some (b, w')) : StepOK w w' := by
  unfold waitReadiness at h
  split at h
  · injection h with h; cases h; exact StepOK.refl w
  · exact stepOK_waitReadinessLoop env ref _ times w b w' h

theorem stepOK_runHooks (env : Env) :
    ∀ (hooks : List Hook) (w : World), StepOK w (runHooks env w hooks) := by
  intro hooks
  induction hooks with
  | nil => exact fun w => StepOK.refl w
  | cons hk rest ih =>
    intro w
    show StepOK w (runHooks env w (hk :: rest))
    unfold runHooks
    rw [List.foldl_cons]
    exact (stepOK_applyObject env w hk.obj false true).trans (ih _)

theorem stepOK_applyLoop (env : Env) (d : DeploymentItem) :
    ∀ (objs : List UnstructuredObject) (w : World), StepOK w (applyLoop env d objs w) := by
  intro objs
  induction objs with
  | nil => exact fun w => StepOK.refl w
  | cons o rest ih =>
    intro w
    unfold applyLoop
    dsimp only
    split
    · exact StepOK.refl w
    · have h1 : StepOK w (applyObject env w o false false) := stepOK_applyObject env w o false false
      split
      · split
        · rename_i hw
          refine StepOK.trans ?_ (ih _)
          refine StepOK.trans ?_ (stepOK_waitReadiness _ _ _ _ _ _ _ hw)
          exact h1.trans (StepOK.mk' (by simp) (Or.inl (by simp)) ⟨[], by simp⟩)
        · refine StepOK.trans ?_ (ih _)
          exact h1.trans (StepOK.mk' (by simp) (Or.inl (by simp)) ⟨[], by simp⟩)
      · exact h1.trans (ih _)

theorem stepOK_deleteFold :
    ∀ (refs : List ObjectRef) (w : World),
      StepOK w (refs.foldl (fun w ref => (deleteObject w ref false).2) w) := by
  intro refs
  induction refs with
  | nil => exact fun w => StepOK.refl w
  | cons r rest ih =>
    intro w
    rw [List.foldl_cons]
    exact (stepOK_deleteObject w r false).trans (ih _)

theorem stepOK_applyDeploymentItem (env : Env) (w : World) (d : DeploymentItem) :
    StepOK w (applyDeploymentItem env w d) := by
  unfold applyDeploymentItem
  dsimp only
  split
  · exact StepOK.mk' rfl (Or.inl rfl) ⟨_, rfl⟩
  · exact ((stepOK_deleteFold _ w).trans (stepOK_runHooks env _ _)).trans
      ((stepOK_applyLoop env d _ _).trans (stepOK_runHooks env _ _))

theorem stepOK_applyDeployments (env : Env) :
    ∀ (items : List DeploymentItem) (w : World), StepOK w (applyDeployments env w items) := by
  intro items
  induction items with
  | nil => exact fun w => StepOK.refl w
  | cons d rest ih =>
    intro w
    unfold applyDeployments
    dsimp only
    split
    · exact StepOK.refl w
    · refine StepOK.trans ?_ (ih _)
      refine StepOK.trans ?_ (stepOK_applyDeploymentItem env _ d)
      exact StepOK.mk' rfl (Or.inl rfl) ⟨_, rfl⟩

theorem stepOK_replaceObjectLoop (ref : ObjectRef)
    (firstVersion : Option UnstructuredObject)
    (cb : UnstructuredObject → Except String UnstructuredObject) :
    ∀ (fuel : Nat) (firstCall : Bool) (w : World),
      StepOK w (replaceObjectLoop ref firstVersion cb fuel firstCall w) := by
  intro fuel
  induction fuel with
  | zero =>
    intro firstCall w
    unfold replaceObjectLoop
    exact StepOK.mk' (handleError_o _ _ _)
      (Or.inr (by simp [handleError_abort])) ⟨[], by simp⟩
  | succ fuel ih =>
    intro firstCall w
    unfold replaceObjectLoop World.getSingleObject World.updateObject World.handleResultCall
    dsimp only
    repeat' split
    all_goals first
      | (refine StepOK.trans ?_ (ih false _);
          exact StepOK.mk' (by simp [ApplyState.addApiWarnings, handleError_o, handleResult_o])
            (by simp [ApplyState.addApiWarnings, handleError_abort, handleResult_abort])
            ⟨_, by (try simp); rfl⟩)
      | exact StepOK.mk' (by simp [ApplyState.addApiWarnings, handleError_o, handleResult_o])
          (by simp [ApplyState.addApiWarnings, handleError_abort, handleResult_abort])
          ⟨_, by (try simp); rfl⟩

theorem stepOK_replaceObject (w : World) (ref : ObjectRef)
    (firstVersion : Option UnstructuredObject)
    (cb : UnstructuredObject → Except String UnstructuredObject) :
    StepOK w (replaceObject w ref firstVersion cb) :=
  stepOK_replaceObjectLoop ref firstVersion cb _ true w

/-! ### C1: hook selection for non-initial deployments -/

/-- C1: code bug.  For an item whose object is already present remotely the
initial-deploy flag is false, and the spec selects
`pre = {pre-deploy-upgrade, pre-deploy}` as the pre-hook list.  The source
(apply_utils.go:408) instead assigns that list to `postHooks` and then
overwrites it, leaving `preHooks` nil: here the item carries a
`pre-deploy-upgrade` hook, the spec's pre-hook list is nonempty, yet the
selected pre-hook list is empty (and the post list is the post-phase
selection alone). -/
theorem upgrade_item_preHooks_empty :
    initialDeployFlag envUpgrade itemUpgrade = false ∧
    determineHooks itemUpgrade ["pre-deploy-upgrade", "pre-deploy"] =
      [{ obj := objHookPre, phases := ["pre-deploy-upgrade"], weight := 0 }] ∧
    (selectHookLists itemUpgrade false).1 = [] ∧
    (selectHookLists itemUpgrade false).2 =
      determineHooks itemUpgrade ["post-deploy-upgrade", "post-deploy"] :=
  ⟨rfl, rfl, rfl, rfl⟩

/-! ### C2: the replace fallback sends the unstamped object -/

/-- C2: code bug.  In the replace path with `ReplaceOnError` set and a
non-nil baseline, the object handed to the gateway's `Update` is the
original `x` (resourceVersion "1"), although the stamped clone (with the
baseline's resourceVersion "42") is a different object: the source computes
`x2` but passes `x` at apply_utils.go:175. -/
theorem retryApplyWithReplace_sends_unstamped_x :
    (retryApplyWithReplace wReplace objStale false (some objRemote)
        (GoError.api (K8sError.otherApi "boom"))).calls =
      [Call.update objStale { forceDryRun := false },
       Call.handleResult (some objStale) false] ∧
    (objStale.clone).setK8sResourceVersion objRemote.getK8sResourceVersion ≠ objStale :=
  ⟨rfl, by decide⟩

/-! ### C3: dry-run and the ReplaceObject update -/

/-- C3: code bug.  With `DryRun=true`, the `Update` issued from
`ReplaceObject` is built from zero-value options (`k8s.UpdateOptions{}`,
apply_utils.go:552), so it carries `ForceDryRun=false` and the gateway
mutates the cluster even though the run is a dry run. -/
theorem replaceObject_dryRun_update_unforced :
    wDry.st.o.dryRun = true ∧
    (replaceObject wDry refApp (some objApp) bumpPayload).calls =
      [Call.update { objApp with payload := 1 } { forceDryRun := false },
       Call.handleResult (some { objApp with payload := 1 }) false] :=
  ⟨rfl, rfl⟩

/-! ### C10: handleResult receives nil in ReplaceObject -/

/-- C10: code bug.  With `firstVersion = nil` and `GetSingleObject`
reporting `NotFound`, `ReplaceObject` reaches `remote == nil` and passes nil
to `handleResult` (apply_utils.go:536), whose first statement dereferences
it (`appliedObject.GetK8sRef()`, line 72) — a nil-pointer panic. -/
theorem replaceObject_calls_handleResult_nil :
    (replaceObject wNotFound refApp none bumpPayload).calls =
      [Call.get refApp, Call.handleResult none false] :=
  rfl

/-! ### C6: deletions versus the inclusion check -/

/-- C6: counterexample.  `itemExcluded` declares one deletion (its GVK
expansion is nonempty) but fails `CheckInclusionForDeploy()`; processing it
performs no gateway call at all — in particular none of its declared
deletions — and only marks the item skipped, contradicting the claim that
deletions happen before the inclusion check. -/
theorem excluded_item_performs_no_deletions :
    computeToDelete envPlain itemExcluded ≠ [] ∧
    (applyDeploymentItem envPlain wPlain itemExcluded).calls =
      [Call.itemSkipped "excluded-item"] :=
  ⟨by decide, rfl⟩

/-! ### C9: barrier ordering in the concurrent scheduler -/

/-- C9: in every interleaving `ApplyDeployments` can produce, if item `b` is
a barrier, `i > b` and `j ≤ b`, then no object application of item `i`
occurs before the completion of item `j`'s worker. -/
theorem barrier_orders_scheduler (barriers : List Bool) (tr : List SchedEvent)
    (b i j k : Nat) (hv : validSched barriers tr = true)
    (hb : barriers.getD b false = true) (hbi : b < i) (hj : j ≤ b)
    (hw : SchedEvent.work i k ∈ tr) :
    SchedEvent.complete j ∈ tr ∧
      tr.indexOf (SchedEvent.complete j) < tr.indexOf (SchedEvent.work i k) := by
  unfold validSched at hv
  simp only [Bool.and_eq_true, List.all_eq_true, decide_eq_true_eq] at hv
  obtain ⟨⟨⟨⟨-, hdisp⟩, hwork⟩, hcomp⟩, hbar⟩ := hv
  have hwrk := hwork _ hw
  simp only [Bool.and_eq_true, decide_eq_true_eq] at hwrk
  obtain ⟨⟨⟨hdi, -⟩, hdi_lt⟩, -⟩ := hwrk
  have hji : j < i := lt_of_le_of_lt hj hbi
  have hdispi := hdisp _ hdi
  simp only [List.all_eq_true, List.mem_range, Bool.and_eq_true, decide_eq_true_eq] at hdispi
  have hdj : SchedEvent.dispatch j ∈ tr := (hdispi j hji).1
  have hbari := hbar _ hdi
  simp only [List.all_eq_true, List.mem_range, Bool.or_eq_true, Bool.not_eq_true',
    decide_eq_false_iff_not, decide_eq_true_eq] at hbari
  have hbb := hbari b hbi
  rcases hbb with hfalse | hall
  · rw [hb] at hfalse; cases hfalse
  · have hcj_lt : tr.indexOf (SchedEvent.complete j) < tr.indexOf (SchedEvent.dispatch i) := by
      rcases hall j (Nat.lt_succ_of_le hj) with h | h
      · exact absurd hdj h
      · exact h
    have hcompj := hcomp _ hdj
    simp only [decide_eq_true_eq] at hcompj
    refine ⟨hcompj, ?_⟩
    calc tr.indexOf (SchedEvent.complete j)
        < tr.indexOf (SchedEvent.dispatch i) := hcj_lt
      _ < tr.indexOf (SchedEvent.work i k) := hdi_lt

/-- Witness for `barrier_orders_scheduler` at the trace `schedTr0`: the
hypotheses hold concretely, the ordering conclusion follows, and the trace
also shows the barrier item itself working before a pre-barrier item
completes (the concurrency half of the claim). -/
theorem barrier_orders_scheduler_witness :
    validSched schedBarriers0 schedTr0 = true ∧
    schedBarriers0.getD 1 false = true ∧
    SchedEvent.work 2 0 ∈ schedTr0 ∧
    (SchedEvent.complete 0 ∈ schedTr0 ∧
      schedTr0.indexOf (SchedEvent.complete 0) < schedTr0.indexOf (SchedEvent.work 2 0)) ∧
    schedTr0.indexOf (SchedEvent.work 1 0) < schedTr0.indexOf (SchedEvent.complete 0) :=
  ⟨by decide, by decide, by decide,
   barrier_orders_scheduler schedBarriers0 schedTr0 1 2 0 0 (by decide) (by decide)
     (by decide) (by decide) (by decide),
   by decide⟩

/-! ### C4: the deployedNewCRD latch -/

/-- C4: the latch is true at construction; a `NoMatch` with the latch armed
disarms it, rediscovers exactly once and requests exactly one patch retry
(surfacing a failing rediscovery); a successful CRD patch re-arms the latch
and a successful non-CRD patch leaves it alone; after a `NoMatch`-driven
rediscovery `ApplyObject` issues exactly two patches and ends with the
latch still false; a `NoMatch` with the latch disarmed records the error
without any rediscovery. -/
theorem deployedNewCRD_latch :
    (∀ o, (newApplyUtil o).deployedNewCRD = true) ∧
    (∀ w : World, ∀ rs, w.st.deployedNewCRD = true → w.rediscoveries = none :: rs →
      handleNewCRDs w none (some (GoError.api K8sError.noMatch)) =
        (true, none,
          { w with
              st := { w.st with deployedNewCRD := false },
              rediscoveries := rs,
              calls := w.calls ++ [Call.rediscover] })) ∧
    (∀ w : World, ∀ rs re, w.st.deployedNewCRD = true → w.rediscoveries = some re :: rs →
      handleNewCRDs w none (some (GoError.api K8sError.noMatch)) =
        (false, some re,
          { w with
              st := { w.st with deployedNewCRD := false },
              rediscoveries := rs,
              calls := w.calls ++ [Call.rediscover] })) ∧
    (∀ w : World, w.st.deployedNewCRD = false →
      handleNewCRDs w none (some (GoError.api K8sError.noMatch)) =
        (false, some (GoError.api K8sError.noMatch), w)) ∧
    (∀ w : World, ∀ crd : UnstructuredObject, crd.ref.gvk.group = "apiextensions.k8s.io" →
      crd.ref.gvk.kind = "CustomResourceDefinition" →
      handleNewCRDs w (some crd) none =
        (true, none, { w with st := { w.st with deployedNewCRD := true } })) ∧
    (∀ w : World, ∀ x : UnstructuredObject,
      ¬(x.ref.gvk.group = "apiextensions.k8s.io" ∧ x.ref.gvk.kind = "CustomResourceDefinition") →
      handleNewCRDs w (some x) none = (false, none, w)) ∧
    (∀ w : World, ∀ env x y ps rs, w.st.deployedNewCRD = true →
      w.patches = ({ err := some (GoError.api K8sError.noMatch) } : PatchResp) ::
        ({ result := some y } : PatchResp) :: ps →
      w.rediscoveries = none :: rs →
      (applyObject env w x false false).calls =
        w.calls ++ [Call.patch (env.fixObjectForPatch x) { forceDryRun := w.st.o.dryRun },
          Call.rediscover,
          Call.patch (env.fixObjectForPatch x) { forceDryRun := w.st.o.dryRun },
          Call.handleResult (some y) false] ∧
      (applyObject env w x false false).st.deployedNewCRD = false) ∧
    (∀ w : World, ∀ env x ps, w.st.deployedNewCRD = false →
      w.patches = ({ err := some (GoError.api K8sError.noMatch) } : PatchResp) :: ps →
      (applyObject env w x false false).calls =
        w.calls ++ [Call.patch (env.fixObjectForPatch x) { forceDryRun := w.st.o.dryRun }] ∧
      (applyObject env w x false false).st.errors =
        w.st.errors ++ [(x.getK8sRef, GoError.api K8sError.noMatch)]) := by
  refine ⟨fun o => rfl, ?_, ?_, ?_, ?_, ?_, ?_, ?_⟩
  · intro w rs harm hred
    simp [handleNewCRDs, World.rediscoverResources, harm, hred, GoError.isNoMatch]
  · intro w rs re harm hred
    simp [handleNewCRDs, World.rediscoverResources, harm, hred, GoError.isNoMatch]
  · intro w hdis
    simp [handleNewCRDs, hdis, GoError.isNoMatch]
  · intro w crd hg hk
    simp [handleNewCRDs, UnstructuredObject.getK8sRef, hg, hk]
  · intro w x hne
    simp only [handleNewCRDs, UnstructuredObject.getK8sRef]
    rw [if_neg]
    simp only [Bool.and_eq_true, decide_eq_true_eq]
    exact fun h => hne ⟨h.1, h.2⟩
  · intro w env x y ps rs harm hp hred
    simp [applyObject, World.patchObject, World.handleResultCall, handleNewCRDs,
      World.rediscoverResources, harm, hp, hred, GoError.isNoMatch,
      ApplyState.handleResult, ApplyState.addApiWarnings]
  · intro w env x ps hdis hp
    simp [applyObject, World.patchObject, handleNewCRDs, hdis, hp, GoError.isNoMatch,
      ApplyState.handleError, ApplyState.addApiWarnings]
    split <;> rfl

/-- Witness for `deployedNewCRD_latch` at concrete worlds: a fresh state has
the latch armed; `wArm` rediscovers once and retries; `wArmFail` surfaces
the rediscovery error; `wDisarmed` records the `NoMatch` without
rediscovery; a CRD result re-arms the latch and `objApp` does not. -/
theorem deployedNewCRD_latch_witness :
    (newApplyUtil {}).deployedNewCRD = true ∧
    handleNewCRDs wArm none (some (GoError.api K8sError.noMatch)) =
      (true, none,
        { wArm with
            st := { wArm.st with deployedNewCRD := false },
            rediscoveries := [],
            calls := wArm.calls ++ [Call.rediscover] }) ∧
    handleNewCRDs wArmFail none (some (GoError.api K8sError.noMatch)) =
      (false, some (GoError.text "rediscovery failed"),
        { wArmFail with
            st := { wArmFail.st with deployedNewCRD := false },
            rediscoveries := [],
            calls := wArmFail.calls ++ [Call.rediscover] }) ∧
    handleNewCRDs wDisarmed none (some (GoError.api K8sError.noMatch)) =
      (false, some (GoError.api K8sError.noMatch), wDisarmed) ∧
    handleNewCRDs wPlain (some crdObj) none =
      (true, none, { wPlain with st := { wPlain.st with deployedNewCRD := true } }) ∧
    handleNewCRDs wPlain (some objApp) none = (false, none, wPlain) ∧
    (applyObject envPlain wArm objApp false false).calls =
      wArm.calls ++ [Call.patch (envPlain.fixObjectForPatch objApp)
          { forceDryRun := wArm.st.o.dryRun },
        Call.rediscover,
        Call.patch (envPlain.fixObjectForPatch objApp) { forceDryRun := wArm.st.o.dryRun },
        Call.handleResult (some objApp) false] ∧
    (applyObject envPlain wDisarmed objApp false false).st.errors =
      wDisarmed.st.errors ++ [(objApp.getK8sRef, GoError.api K8sError.noMatch)] :=
  ⟨deployedNewCRD_latch.1 {},
   deployedNewCRD_latch.2.1 wArm [] rfl rfl,
   deployedNewCRD_latch.2.2.1 wArmFail [] (GoError.text "rediscovery failed") rfl rfl,
   deployedNewCRD_latch.2.2.2.1 wDisarmed rfl,
   deployedNewCRD_latch.2.2.2.2.1 wPlain crdObj rfl rfl,
   deployedNewCRD_latch.2.2.2.2.2.1 wPlain objApp (by decide),
   (deployedNewCRD_latch.2.2.2.2.2.2.1 wArm envPlain objApp objApp [] [] rfl rfl rfl).1,
   (deployedNewCRD_latch.2.2.2.2.2.2.2 wDisarmed envPlain objApp [] rfl rfl).2⟩

/-! ### C5: the conflict path is terminal -/

/-- C5: a conflict with a nil baseline only records the error; with
`ForceApply` set the object is re-patched as-is with `ForceApply=true` and a
failing re-patch is recorded with no further gateway call (no replace
fall-through); without `ForceApply` the resolver's object is re-patched with
`ForceApply=true`, one warning is emitted per lost-ownership record, and a
failing re-patch is again terminal; an `InternalError` of the first patch
is recorded with no retry of any kind. -/
theorem conflict_path_terminal :
    (∀ env w x hook e, retryApplyWithConflicts env w x hook none e =
      { w with st := w.st.handleError x.getK8sRef e }) ∧
    (∀ env (w : World) x hook remote pe ps e, w.st.o.forceApply = true →
      w.patches = ({ err := some pe } : PatchResp) :: ps →
      (retryApplyWithConflicts env w x hook (some remote) e).calls =
        w.calls ++ [Call.patch x { forceDryRun := w.st.o.dryRun, forceApply := true }] ∧
      (retryApplyWithConflicts env w x hook (some remote) e).st.errors =
        w.st.errors ++ [(x.getK8sRef, pe)]) ∧
    (∀ env (w : World) x hook remote status x3 lost pe ps,
      w.st.o.forceApply = false →
      env.resolveConflicts x remote status = Except.ok (x3, lost) →
      w.patches = ({ err := some pe } : PatchResp) :: ps →
      (retryApplyWithConflicts env w x hook (some remote)
          (GoError.api (K8sError.conflict status))).calls =
        w.calls ++ [Call.patch x3 { forceDryRun := w.st.o.dryRun, forceApply := true }] ∧
      (retryApplyWithConflicts env w x hook (some remote)
          (GoError.api (K8sError.conflict status))).st.errors =
        w.st.errors ++ [(x.getK8sRef, pe)] ∧
      (retryApplyWithConflicts env w x hook (some remote)
          (GoError.api (K8sError.conflict status))).st.warnings =
        w.st.warnings ++ lost.map (fun lo => (x.getK8sRef,
          lo.message ++ ". Not updating field " ++ lo.field ++
            " as we lost field ownership"))) ∧
    (∀ env (w : World) x ps,
      w.patches = ({ err := some (GoError.api K8sError.internalError) } : PatchResp) :: ps →
      (applyObject env w x false false).calls =
        w.calls ++ [Call.patch (env.fixObjectForPatch x) { forceDryRun := w.st.o.dryRun }] ∧
      (applyObject env w x false false).st.errors =
        w.st.errors ++ [(x.getK8sRef, GoError.api K8sError.internalError)]) := by
  refine ⟨fun env w x hook e => rfl, ?_, ?_, ?_⟩
  · intro env w x hook remote pe ps e hf hp
    simp [retryApplyWithConflicts, hf, hp, World.patchObject, handleError_errors,
      ApplyState.addApiWarnings]
  · intro env w x hook remote status x3 lost pe ps hf hres hp
    simp [retryApplyWithConflicts, hf, hres, hp, World.patchObject, handleError_errors,
      handleError_warnings, foldl_addWarning_errors, foldl_addWarning_warnings,
      foldl_addWarning_o, ApplyState.addApiWarnings]
  · intro env w x ps hp
    simp [applyObject, World.patchObject, handleNewCRDs, hp, GoError.isNoMatch,
      GoError.isConflict, GoError.isInternal, handleError_errors,
      ApplyState.addApiWarnings]

/-- Witness for `conflict_path_terminal`: a nil baseline records the error;
`wForce` re-patches `objApp` as-is and records the failing re-patch;
`wNoForce` re-patches the resolved object of `envResolve` with one
lost-ownership warning; `wInternal` records the internal error after its
single patch. -/
theorem conflict_path_terminal_witness :
    retryApplyWithConflicts envPlain wPlain objApp false none
        (GoError.api (K8sError.conflict [])) =
      { wPlain with
          st := wPlain.st.handleError objApp.getK8sRef (GoError.api (K8sError.conflict [])) } ∧
    (retryApplyWithConflicts envPlain wForce objApp false (some objRemote)
        (GoError.api (K8sError.conflict []))).calls =
      wForce.calls ++ [Call.patch objApp
        { forceDryRun := wForce.st.o.dryRun, forceApply := true }] ∧
    (retryApplyWithConflicts envResolve wNoForce objApp false (some objRemote)
        (GoError.api (K8sError.conflict [("spec.replicas", "conflict")]))).st.warnings =
      wNoForce.st.warnings ++ [(objApp.getK8sRef,
        "conflict with manager kubectl" ++ ". Not updating field " ++ "spec.replicas" ++
          " as we lost field ownership")] ∧
    (applyObject envPlain wInternal objApp false false).st.errors =
      wInternal.st.errors ++ [(objApp.getK8sRef, GoError.api K8sError.internalError)] :=
  ⟨conflict_path_terminal.1 envPlain wPlain objApp false (GoError.api (K8sError.conflict [])),
   (conflict_path_terminal.2.1 envPlain wForce objApp false objRemote
     (GoError.api (K8sError.otherApi "boom")) [] (GoError.api (K8sError.conflict []))
     rfl rfl).1,
   (conflict_path_terminal.2.2.1 envResolve wNoForce objApp false objRemote
     [("spec.replicas", "conflict")] { objApp with payload := 99 }
     [{ field := "spec.replicas", message := "conflict with manager kubectl" }]
     (GoError.api (K8sError.otherApi "boom")) [] rfl rfl rfl).2.2,
   (conflict_path_terminal.2.2.2 envPlain wInternal objApp [] rfl).2⟩

/-! ### C7: the readiness waiter -/

/-- Errors accumulated by the validation-error fold of `waitReadinessLoop`. -/
theorem foldl_handleError_errors (es : List String) (st : ApplyState) (ref : ObjectRef) :
    (es.foldl (fun st e => st.handleError ref (GoError.text e)) st).errors =
      st.errors ++ es.map (fun e => (ref, GoError.text e)) := by
  induction es generalizing st with
  | nil => simp
  | cons a l ih => rw [List.foldl_cons, ih]; simp [handleError_errors]

/-- C7: dry-run returns true with no poll; a zero timeout falls back to the
run-wide `WaitObjectTimeout`; a `NotFound` get records the disappearance
and fails; any other get error is recorded and fails; a ready validation
succeeds; validation errors are each recorded and the wait fails; and an
inconclusive poll at or past a positive timeout records a timeout error and
fails. -/
theorem waitReadiness_cases :
    (∀ env (w : World) ref timeout times, w.st.o.dryRun = true →
      waitReadiness env w ref timeout times = some (true, w)) ∧
    (∀ env (w : World) ref times, w.st.o.dryRun = false →
      waitReadiness env w ref 0 times =
        waitReadinessLoop env ref w.st.o.waitObjectTimeout times w) ∧
    (∀ env (w : World) ref timeout now rest gs,
      w.gets = ({ err := some (GoError.api K8sError.notFound) } : GetResp) :: gs →
      ∃ w', waitReadinessLoop env ref timeout (now :: rest) w = some (false, w') ∧
        w'.st.errors = w.st.errors ++
          [(ref, GoError.text (ref.name ++ " disappeared while waiting for it to become ready"))]) ∧
    (∀ env (w : World) ref timeout now rest gs e, e.isNotFound = false →
      w.gets = ({ err := some e } : GetResp) :: gs →
      ∃ w', waitReadinessLoop env ref timeout (now :: rest) w = some (false, w') ∧
        w'.st.errors = w.st.errors ++ [(ref, e)]) ∧
    (∀ env (w : World) ref timeout now rest gs y, env.validate y = { ready := true } →
      w.gets = ({ result := some y } : GetResp) :: gs →
      ∃ w', waitReadinessLoop env ref timeout (now :: rest) w = some (true, w') ∧
        w'.st.errors = w.st.errors) ∧
    (∀ env (w : World) ref timeout now rest gs y es, es ≠ [] →
      env.validate y = { ready := false, errors := es } →
      w.gets = ({ result := some y } : GetResp) :: gs →
      ∃ w', waitReadinessLoop env ref timeout (now :: rest) w = some (false, w') ∧
        w'.st.errors = w.st.errors ++ es.map (fun e => (ref, GoError.text e))) ∧
    (∀ env (w : World) ref timeout now rest gs y,
      env.validate y = { ready := false, errors := [] } →
      w.gets = ({ result := some y } : GetResp) :: gs →
      0 < timeout → timeout ≤ now →
      ∃ w', waitReadinessLoop env ref timeout (now :: rest) w = some (false, w') ∧
        w'.st.errors = w.st.errors ++
          [(ref, GoError.text ("timed out while waiting for " ++ ref.name))]) := by
  refine ⟨?_, ?_, ?_, ?_, ?_, ?_, ?_⟩
  · intro env w ref timeout times hdry
    simp [waitReadiness, hdry]
  · intro env w ref times hdry
    simp [waitReadiness, hdry]
  · intro env w ref timeout now rest gs hg
    simp [waitReadinessLoop, World.getSingleObject, hg, GoError.isNotFound,
      handleError_errors, ApplyState.addApiWarnings]
  · intro env w ref timeout now rest gs e hnf hg
    simp [waitReadinessLoop, World.getSingleObject, hg, hnf,
      handleError_errors, ApplyState.addApiWarnings]
  · intro env w ref timeout now rest gs y hv hg
    simp [waitReadinessLoop, World.getSingleObject, hg, hv, ApplyState.addApiWarnings]
  · intro env w ref timeout now rest gs y es hes hv hg
    simp [waitReadinessLoop, World.getSingleObject, hg, hv, hes,
      foldl_handleError_errors, ApplyState.addApiWarnings]
  · intro env w ref timeout now rest gs y hv hg ht hnow
    simp [waitReadinessLoop, World.getSingleObject, hg, hv, ht, hnow,
      handleError_errors, ApplyState.addApiWarnings]

/-- Witness for `waitReadiness_cases` at concrete worlds: a dry run answers
true at once; the zero timeout becomes `WaitObjectTimeout = 30`;
`wNotFound`'s object has disappeared; `wWaitErr` records the server error;
`wWaitOk` is ready under `envReady`, records `envVErr`'s validation error,
and under the never-ready `envPlain` a poll at elapsed time 30 of a
30-unit timeout records the timeout. -/
theorem waitReadiness_cases_witness :
    waitReadiness envPlain wDry refApp 7 [] = some (true, wDry) ∧
    waitReadiness envPlain wWaitOk refApp 0 [0] =
      waitReadinessLoop envPlain refApp 30 [0] wWaitOk ∧
    (∃ w', waitReadinessLoop envPlain refApp 30 [0] wNotFound = some (false, w') ∧
      w'.st.errors = wNotFound.st.errors ++
        [(refApp, GoError.text (refApp.name ++ " disappeared while waiting for it to become ready"))]) ∧
    (∃ w', waitReadinessLoop envPlain refApp 30 [0] wWaitErr = some (false, w') ∧
      w'.st.errors = wWaitErr.st.errors ++ [(refApp, GoError.api K8sError.internalError)]) ∧
    (∃ w', waitReadinessLoop envReady refApp 30 [0] wWaitOk = some (true, w') ∧
      w'.st.errors = wWaitOk.st.errors) ∧
    (∃ w', waitReadinessLoop envVErr refApp 30 [0] wWaitOk = some (false, w') ∧
      w'.st.errors = wWaitOk.st.errors ++ [(refApp, GoError.text "container crashed")]) ∧
    (∃ w', waitReadinessLoop envPlain refApp 30 [30] wWaitOk = some (false, w') ∧
      w'.st.errors = wWaitOk.st.errors ++
        [(refApp, GoError.text ("timed out while waiting for " ++ refApp.name))]) :=
  ⟨waitReadiness_cases.1 envPlain wDry refApp 7 [] rfl,
   waitReadiness_cases.2.1 envPlain wWaitOk refApp [0] rfl,
   waitReadiness_cases.2.2.1 envPlain wNotFound refApp 30 0 [] [] rfl,
   waitReadiness_cases.2.2.2.1 envPlain wWaitErr refApp 30 0 [] []
     (GoError.api K8sError.internalError) rfl rfl,
   waitReadiness_cases.2.2.2.2.1 envReady wWaitOk refApp 30 0 [] [] objApp rfl rfl,
   waitReadiness_cases.2.2.2.2.2.1 envVErr wWaitOk refApp 30 0 [] [] objApp
     ["container crashed"] (by decide) rfl rfl,
   waitReadiness_cases.2.2.2.2.2.2 envPlain wWaitOk refApp 30 30 [] [] objApp rfl rfl
     (by decide) (by decide)⟩

/-! ### C6 (amended): deletions happen only for included items, first -/

/-- Calls of the deletion loop of `applyDeploymentItem`: one delete per
expanded reference, in order. -/
theorem deleteFold_calls :
    ∀ (refs : List ObjectRef) (w : World),
      (refs.foldl (fun w ref => (deleteObject w ref false).2) w).calls =
        w.calls ++ refs.map (fun ref => Call.delete ref { forceDryRun := w.st.o.dryRun }) := by
  intro refs
  induction refs with
  | nil => intro w; simp
  | cons r rest ih =>
    intro w
    rw [List.foldl_cons, ih, deleteObject_calls, deleteObject_st_o]
    simp

/-- C6 (amended): an item failing `CheckInclusionForDeploy()` is only marked
skipped — no gateway call, no state change; an included item's trace starts
with exactly the deletions of the expanded `DeleteObjects` directives, in
order, before anything else. -/
theorem applyDeploymentItem_deletes_after_inclusion :
    (∀ env (w : World) d, d.checkInclusionForDeploy = false →
      applyDeploymentItem env w d =
        { w with calls := w.calls ++ [Call.itemSkipped d.relToProjectItemDir] }) ∧
    (∀ env (w : World) d, d.checkInclusionForDeploy = true →
      ∃ t, (applyDeploymentItem env w d).calls =
        w.calls ++ (computeToDelete env d).map
          (fun ref => Call.delete ref { forceDryRun := w.st.o.dryRun }) ++ t) := by
  constructor
  · intro env w d h
    unfold applyDeploymentItem
    simp [h]
  · intro env w d h
    obtain ⟨-, -, -, t, hc⟩ :=
      StepOK.trans
        (StepOK.trans
          (stepOK_runHooks env (selectHookLists d (initialDeployFlag env d)).1
            ((computeToDelete env d).foldl (fun w ref => (deleteObject w ref false).2) w))
          (stepOK_applyLoop env d (d.objects.filter fun o => (getHook o).isNone) _))
        (stepOK_runHooks env (selectHookLists d (initialDeployFlag env d)).2 _)
    refine ⟨t, ?_⟩
    unfold applyDeploymentItem
    simp only [h, Bool.not_true]
    rw [if_neg (by simp)]
    rw [hc, deleteFold_calls]

/-- Witness for `applyDeploymentItem_deletes_after_inclusion`: the excluded
item is only marked skipped, and the included variant of the same item
begins by deleting its one expanded reference. -/
theorem applyDeploymentItem_deletes_after_inclusion_witness :
    applyDeploymentItem envPlain wPlain itemExcluded =
      { wPlain with calls := wPlain.calls ++ [Call.itemSkipped "excluded-item"] } ∧
    ∃ t, (applyDeploymentItem envPlain wPlain itemIncluded).calls =
      wPlain.calls ++ (computeToDelete envPlain itemIncluded).map
        (fun ref => Call.delete ref { forceDryRun := wPlain.st.o.dryRun }) ++ t :=
  ⟨applyDeploymentItem_deletes_after_inclusion.1 envPlain wPlain itemExcluded rfl,
   applyDeploymentItem_deletes_after_inclusion.2 envPlain wPlain itemIncluded rfl⟩

/-! ### C8: the abort signal is monotonic -/

/-- Every operation of the orchestrator satisfies `StepOK`. -/
theorem stepOK_runOp (op : Op) (w : World) : StepOK w (runOp op w) := by
  cases op with
  | handleErrorOp ref e =>
    exact StepOK.mk' (handleError_o _ _ _) (Or.inr (by simp [runOp, handleError_abort]))
      ⟨[], by simp [runOp]⟩
  | deleteObjectOp ref hook => exact stepOK_deleteObject w ref hook
  | applyObjectOp env x replaced hook => exact stepOK_applyObject env w x replaced hook
  | waitReadinessOp env ref timeout times =>
    simp only [runOp]
    split
    · rename_i hw; exact stepOK_waitReadiness _ _ _ _ _ _ _ hw
    · exact StepOK.refl w
  | runHooksOp env hooks => exact stepOK_runHooks env hooks w
  | applyDeploymentItemOp env d => exact stepOK_applyDeploymentItem env w d
  | applyDeploymentsOp env items => exact stepOK_applyDeployments env items w
  | replaceObjectOp ref firstVersion cb => exact stepOK_replaceObject w ref firstVersion cb

/-- C8: across every operation of the orchestrator, the run options never
change and `abortSignal` is monotone — once true it stays true — and is
raised from false only when the run has `AbortOnError` (`HandleError` is the
only raiser, and its effect is exactly `abortSignal ← abortSignal ∨
AbortOnError`); once the signal is set, the per-item object loop applies no
further object and the scheduler dispatches no further item. -/
theorem abortSignal_monotonic (op : Op) (w : World) (ref : ObjectRef) (e : GoError)
    (env : Env) (objs : List UnstructuredObject) (d : DeploymentItem)
    (items : List DeploymentItem) :
    ((runOp op w).st.o = w.st.o) ∧
    (w.st.abortSignal = true → (runOp op w).st.abortSignal = true) ∧
    ((runOp op w).st.abortSignal = true →
      w.st.abortSignal = true ∨ w.st.o.abortOnError = true) ∧
    ((runOp (Op.handleErrorOp ref e) w).st.abortSignal =
      (w.st.abortSignal || w.st.o.abortOnError)) ∧
    (w.st.abortSignal = true → applyLoop env d objs w = w) ∧
    (w.st.abortSignal = true → applyDeployments env w items = w) := by
  obtain ⟨ho, hm, hs, -⟩ := stepOK_runOp op w
  refine ⟨ho, hm, hs, by simp [runOp, handleError_abort], ?_, ?_⟩
  · intro h
    cases objs with
    | nil => rfl
    | cons o rest =>
      unfold applyLoop
      simp [h]
  · intro h
    cases items with
    | nil => rfl
    | cons d rest =>
      unfold applyDeployments
      simp [h]

/-- Witness for `abortSignal_monotonic`: on the already-aborted world the
signal survives a `DeleteObject`, no further object of a remaining list is
applied and no further item is dispatched; on the armed-but-unset world,
`HandleError` raises the signal. -/
theorem abortSignal_monotonic_witness :
    (runOp (Op.deleteObjectOp refApp false) wAborted).st.abortSignal = true ∧
    applyLoop envPlain itemIncluded [objApp] wAborted = wAborted ∧
    applyDeployments envPlain wAborted [itemIncluded] = wAborted ∧
    (runOp (Op.handleErrorOp refApp (GoError.text "boom")) wAbortArmed).st.abortSignal =
      (wAbortArmed.st.abortSignal || wAbortArmed.st.o.abortOnError) :=
  ⟨(abortSignal_monotonic (Op.deleteObjectOp refApp false) wAborted refApp
      (GoError.text "boom") envPlain [objApp] itemIncluded [itemIncluded]).2.1 rfl,
   (abortSignal_monotonic (Op.deleteObjectOp refApp false) wAborted refApp
      (GoError.text "boom") envPlain [objApp] itemIncluded [itemIncluded]).2.2.2.2.1 rfl,
   (abortSignal_monotonic (Op.deleteObjectOp refApp false) wAborted refApp
      (GoError.text "boom") envPlain [objApp] itemIncluded [itemIncluded]).2.2.2.2.2 rfl,
   (abortSignal_monotonic (Op.handleErrorOp refApp (GoError.text "boom")) wAbortArmed refApp
      (GoError.text "boom") envPlain [objApp] itemIncluded [itemIncluded]).2.2.2.1⟩

end KluctlApply
